import Mathlib

/-!
Shallow embedding of the `harmonized-landsat-sentinel` timeseries core
(`generate_HLS_timeseries.py`, `process_sensor_band.py`,
`process_sensor_mosaic.py`) and proofs about it.

Modelling conventions:
* Python exceptions are values of `PyErr`; a computation that may raise is a
  value of `M α = St → Except PyErr α × St` where `St` records the event trace
  (reverse-chronological) plus the directories and files created so far.
  `try/except` is `tryCatchM`; state mutated before a raise is kept, as in
  Python.
* Calendar dates are an abstract linearly ordered type `D`: the source only
  ever compares, sorts, deduplicates and formats dates.  `parser.parse` on an
  already-normalized date is the identity, and `date.strftime('%Y%m%d')` is an
  explicit formatting parameter `fmt : D → String`.  Concrete scenarios use
  `D := Nat` with dates encoded `yyyymmdd` and `fmt := Nat.repr`.
* All external collaborators (the HLS catalog connection, `sentinel_tiles`,
  the `rasters` library) are fields of an `Env D` record; granules are opaque
  `Nat` handles and images carry just the geometry data the core inspects.
* `os.path.join` is `pjoin` (no absolute-path second argument arises in this
  code), `os.path.expanduser` is the identity (no `~` paths arise), and
  `os.makedirs(..., exist_ok=True)` is an idempotent insertion into the set of
  existing directories that only fails when `exist_ok` is false and the
  directory exists.
* Python's `sorted(set(...))` / `sorted(...unique())` on dates is `sortDedup`
  (insertion sort that drops duplicates).
-/

namespace HLS

/-- Python exception classes that occur in this code base.  `except Exception`
catches every constructor; `except (AttributeError, KeyError)` catches exactly
the first two. -/
inductive PyErr
  | attributeError
  | keyError
  | valueError
  | typeError
  | fileExistsError
  | otherError
deriving DecidableEq, Repr

deriving instance DecidableEq for Except

/-- Logging levels of the `logging` module as used by the source. -/
inductive LogLevel
  | debug
  | info
  | warning
  | error
deriving DecidableEq, Repr

/-- Geometry attached to a raster image: coordinate reference system and native
cell size (`image.geometry.crs`, `image.geometry.cell_size`). -/
structure RGeom where
  crs : Nat
  cell_size : Nat
deriving DecidableEq, Repr

/-- A raster image as the core sees it: an opaque payload plus its geometry. -/
structure Image where
  ident : Nat
  geometry : RGeom
deriving DecidableEq, Repr

/-- An opaque `rasters.BBox` value. -/
structure BBoxD where
  ident : Nat
deriving DecidableEq, Repr

/-- An opaque `rasters.RasterGeometry` / `RasterGrid` value. -/
structure GridD where
  ident : Nat
deriving DecidableEq, Repr

/-- The `Union[RasterGeometry, BBox]` argument: `isinstance(geometry, BBox)`
becomes a match on this tagged union. -/
inductive Geom
  | bbox (b : BBoxD)
  | grid (g : GridD)
deriving DecidableEq, Repr

/-- Observable actions of the core: log records, catalog and collaborator
calls, directory creation, file writes. -/
inductive Event
  | logged (lvl : LogLevel)
  | listingQuery (tile : String)
  | granuleQuery (sensor tile : String)
  | combinedQuery (band tile : String)
  | bandExtract (granule : Nat) (band : String)
  | tileLookup
  | mkdirCall (dir : String)
  | writeFile (path : String)
  | mosaicCall (geom : Geom)
deriving DecidableEq, Repr

/-- Run state: event trace (most recent first), directories that exist and
files that exist. -/
structure St where
  events : List Event
  dirs : List String
  files : List String
deriving DecidableEq, Repr

/-- The empty starting state. -/
def st0 : St := ⟨[], [], []⟩

/-- Effectful computations: state transformer over `St` with Python-style
exceptions.  The state reached before a raise is preserved. -/
def M (α : Type) : Type := St → Except PyErr α × St

def mpure {α : Type} (a : α) : M α := fun st => (.ok a, st)

def mbind {α β : Type} (x : M α) (f : α → M β) : M β := fun st =>
  match x st with
  | (.ok a, st') => f a st'
  | (.error e, st') => (.error e, st')

instance : Monad M where
  pure := mpure
  bind := mbind

/-- Raise a Python exception. -/
def throwM {α : Type} (e : PyErr) : M α := fun st => (.error e, st)

/-- Python `try`/`except`: run `x`; on an exception run the handler from the
state reached at the raise. -/
def tryCatchM {α : Type} (x : M α) (handler : PyErr → M α) : M α := fun st =>
  match x st with
  | (.ok a, st') => (.ok a, st')
  | (.error e, st') => handler e st'

/-- Evaluate a collaborator response: an `Except` value lifted into `M`. -/
def liftE {α : Type} (r : Except PyErr α) : M α := fun st =>
  match r with
  | .ok a => (.ok a, st)
  | .error e => (.error e, st)

/-- Record an observable event. -/
def record (e : Event) : M Unit := fun st =>
  (.ok (), { st with events := e :: st.events })

/-- A call to `logger.debug/info/warning/error` (messages abstracted). -/
def logM (lvl : LogLevel) : M Unit := record (.logged lvl)

/-- Insert into a list acting as a set (no duplicates added). -/
def insertNew (x : String) (l : List String) : List String :=
  if x ∈ l then l else x :: l

/-- `os.makedirs(dir, exist_ok=ok)`: fails with `FileExistsError` only when the
directory exists and `exist_ok` is false; otherwise records the directory. -/
def mkdirsM (dir : String) (existOk : Bool) : M Unit := fun st =>
  if dir ∈ st.dirs ∧ ¬existOk then (.error .fileExistsError, st)
  else (.ok (), { st with events := .mkdirCall dir :: st.events,
                          dirs := insertNew dir st.dirs })

/-- `os.path.join(a, b)` for the relative components this code produces. -/
def pjoin (a b : String) : String :=
  if a = "" then b
  else if a.data.getLast? = some '/' then a ++ b
  else a ++ "/" ++ b

/-- `os.path.expanduser`: identity here, since no path in this code base starts
with `~`. -/
def expanduser (s : String) : String := s

/-- Characters of a path before its last slash (empty when there is none). -/
def dirnameChars (l : List Char) : List Char :=
  ((l.reverse.dropWhile (· ≠ '/')).drop 1).reverse

/-- `os.path.dirname` for the relative paths this code produces. -/
def dirname (s : String) : String := ⟨dirnameChars s.data⟩

/-- One row of the catalog listing: its date plus whether the `sentinel` /
`landsat` identifying fields are populated (`notna()`). -/
structure Row (D : Type) where
  date_UTC : D
  sentinel : Bool
  landsat : Bool
deriving DecidableEq

/-- External collaborators consumed by the core: the HLS catalog connection
(`listing`, `sentinel`, `landsat`, `product`, granule band access, geotiff
serialization), `sentinel_tiles` lookup, and the `rasters` grid and mosaic
primitives.  Granules are opaque `Nat` handles. -/
structure Env (D : Type) where
  listing : String → Option D → Option D → Except PyErr (List (Row D))
  sentinel : String → D → Except PyErr Nat
  landsat : String → D → Except PyErr Nat
  product : String → D → String → Except PyErr Image
  granuleProduct : Nat → String → Except PyErr Image
  toGeotiff : Image → String → Except PyErr Unit
  tilesFromBbox : BBoxD → List String
  tilesFromGeom : GridD → List String
  toCrs : BBoxD → Nat → Except PyErr BBoxD
  gridFromBbox : BBoxD → Nat → Nat → Except PyErr GridD
  mosaic : List Image → Geom → Except PyErr Image

/-- `image.to_geotiff(path)`: on success records the write and the file. -/
def writeM {D : Type} (env : Env D) (img : Image) (path : String) : M Unit := fun st =>
  match env.toGeotiff img path with
  | .ok _ => (.ok (), { st with events := .writeFile path :: st.events,
                                files := insertNew path st.files })
  | .error e => (.error e, st)

/-- Sensor-specific granule lookup: `HLS.sentinel(...)` when the sensor tag is
`"S30"`, else `HLS.landsat(...)` (the source's `else` covers `"L30"`). -/
def granuleOf {D : Type} (env : Env D) (sensor tile : String) (d_parsed : D) :
    Except PyErr Nat :=
  if sensor = "S30" then env.sentinel tile d_parsed else env.landsat tile d_parsed

/-- Record and perform the sensor-specific granule lookup. -/
def getGranule {D : Type} (env : Env D) (sensor tile : String) (d_parsed : D) :
    M Nat := do
  record (.granuleQuery sensor tile)
  liftE (granuleOf env sensor tile d_parsed)

/-- Insert into an ascending duplicate-free list, keeping it ascending and
duplicate-free. -/
def insortND {D : Type} [LinearOrder D] (x : D) : List D → List D
  | [] => [x]
  | y :: ys =>
    if x = y then y :: ys
    else if x ≤ y then x :: y :: ys
    else y :: insortND x ys

/-- Python's `sorted(set(l))` / `sorted(l.unique())`: the ascending
duplicate-free enumeration of the elements of `l`. -/
def sortDedup {D : Type} [LinearOrder D] (l : List D) : List D :=
  l.foldr insortND []

/-- Per-sensor availability for one tile, as stored in `tile_sensor_dates`. -/
structure SensorDates (D : Type) where
  S30 : List D
  L30 : List D
deriving DecidableEq

/-- The `tile_sensor_dates` dictionary, in insertion order. -/
abbrev Cal (D : Type) : Type := List (String × SensorDates D)

/-- Dictionary lookup `tile_sensor_dates.get(tile, ...)`. -/
def calFind {D : Type} : Cal D → String → Option (SensorDates D)
  | [], _ => none
  | (t, sd) :: rest, tile => if t = tile then some sd else calFind rest tile

/-- `tile_sensor_dates.get(tile, {}).get(sensor, [])`. -/
def calGet {D : Type} (cal : Cal D) (tile sensor : String) : List D :=
  match calFind cal tile with
  | some sd => if sensor = "S30" then sd.S30 else if sensor = "L30" then sd.L30 else []
  | none => []

/-- The deterministic per-tile output name built by `process_sensor_band`:
`{sensor}_{band}_{tile}_{YYYYMMDD}.tif` joined under the output directory. -/
def bandFilename {D : Type} (fmt : D → String) (sensor band tile : String)
    (d_parsed : D) (output_directory : String) : String :=
  pjoin output_directory
    (sensor ++ "_" ++ band ++ "_" ++ tile ++ "_" ++ fmt d_parsed ++ ".tif")

/-- The deterministic mosaic output name built by `process_sensor_mosaic`:
`{sensor}_{band}_{YYYYMMDD}.tif` (no tile component) under the output
directory. -/
def mosaicFilename {D : Type} (fmt : D → String) (sensor band : String)
    (d_parsed : D) (output_directory : String) : String :=
  pjoin output_directory (sensor ++ "_" ++ band ++ "_" ++ fmt d_parsed ++ ".tif")

/-- Embedding of `process_sensor_band.py::process_sensor_band`.  Resolves the
sensor-specific granule, extracts the band (an `AttributeError`/`KeyError`
there means the band is absent on this sensor: warning, `None`), builds the
deterministic filename, creates the directory and writes the image.  Any other
exception is caught by the outer handler: error log, `None`. -/
def process_sensor_band {D : Type} (env : Env D) (fmt : D → String)
    (sensor : String) (_d : D) (d_parsed : D) (band tile : String)
    (output_directory : String) : M (Option String) := do
  logM .info
  tryCatchM
    (do
      let granule ← getGranule env sensor tile d_parsed
      let image? ← tryCatchM
        (do
          record (.bandExtract granule band)
          let image ← liftE (env.granuleProduct granule band)
          pure (some image))
        (fun e =>
          match e with
          | .attributeError => do logM .warning; pure none
          | .keyError => do logM .warning; pure none
          | e' => throwM e')
      match image? with
      | none => pure none
      | some image => do
        let filename := bandFilename fmt sensor band tile d_parsed output_directory
        let directory := dirname (expanduser filename)
        if directory ≠ "" then mkdirsM directory true else pure ()
        logM .info
        writeM env image (expanduser filename)
        pure (some filename))
    (fun _ => do
      logM .error
      pure none)

/-- The guarded per-tile extraction unit of `process_sensor_mosaic` (lines
57-75): resolve the granule, extract the band; `AttributeError`/`KeyError`
from the band lookup means the band is absent on this sensor (debug log,
skip); any other failure is logged at error level and skipped. -/
def collectTileStep {D : Type} (env : Env D) (sensor : String) (d_parsed : D)
    (band tile : String) : M (Option Image) :=
  tryCatchM
    (do
      let granule ← getGranule env sensor tile d_parsed
      tryCatchM
        (do
          record (.bandExtract granule band)
          let image ← liftE (env.granuleProduct granule band)
          pure (some image))
        (fun e =>
          match e with
          | .attributeError => do logM .debug; pure none
          | .keyError => do logM .debug; pure none
          | e' => throwM e'))
    (fun _ => do
      logM .error
      pure none)

/-- The per-tile collection loop of `process_sensor_mosaic` (lines 46-75):
skip tiles without availability, otherwise extract with the tolerance policy
of `collectTileStep`, collecting successes in tile order. -/
def collectImages {D : Type} [DecidableEq D] (env : Env D) (sensor : String)
    (d : D) (d_parsed : D) (band : String) (cal : Cal D) :
    List String → M (List Image)
  | [] => pure []
  | tile :: rest => do
    let available_dates := calGet cal tile sensor
    if d ∈ available_dates then do
      logM .info
      let image? ← collectTileStep env sensor d_parsed band tile
      let restImages ← collectImages env sensor d d_parsed band cal rest
      match image? with
      | some image => pure (image :: restImages)
      | none => pure restImages
    else
      collectImages env sensor d d_parsed band cal rest

/-- The grid-derivation, compositing and persistence phase of
`process_sensor_mosaic` (lines 82-114), reached with at least one collected
image: a `BBox` target is reprojected into the first image's crs and gridded
at its native cell size, a ready grid is used unchanged; any exception is
caught (error log, `None`). -/
def sensorMosaicStep {D : Type} (env : Env D) (fmt : D → String)
    (sensor : String) (d_parsed : D) (band : String) (geometry : Geom)
    (img0 : Image) (restImages : List Image) (output_directory : String) :
    M (Option String) :=
  let filename := mosaicFilename fmt sensor band d_parsed output_directory
  tryCatchM
    (do
      let mosaic_geometry ←
        match geometry with
        | .bbox b => do
          let target_bbox ← liftE (env.toCrs b img0.geometry.crs)
          let grid ← liftE (env.gridFromBbox target_bbox img0.geometry.cell_size
            img0.geometry.crs)
          pure (Geom.grid grid)
        | .grid g => pure (Geom.grid g)
      record (.mosaicCall mosaic_geometry)
      let composite ← liftE (env.mosaic (img0 :: restImages) mosaic_geometry)
      let directory := dirname (expanduser filename)
      if directory ≠ "" then mkdirsM directory true else pure ()
      logM .info
      writeM env composite (expanduser filename)
      pure (some filename))
    (fun _ => do
      logM .error
      pure none)

/-- Embedding of `process_sensor_mosaic.py::process_sensor_mosaic`.  Collects
per-tile images; with zero images logs a warning and returns `None`; otherwise
derives the working grid, composites, and persists under
`{sensor}_{band}_{YYYYMMDD}.tif` via `sensorMosaicStep`. -/
def process_sensor_mosaic {D : Type} [DecidableEq D] (env : Env D)
    (fmt : D → String) (sensor : String) (d : D) (d_parsed : D) (band : String)
    (tiles : List String) (cal : Cal D) (geometry : Geom)
    (output_directory : String) : M (Option String) := do
  let images ← collectImages env sensor d d_parsed band cal tiles
  match images with
  | [] => do
    logM .warning
    pure none
  | img0 :: restImages =>
    sensorMosaicStep env fmt sensor d_parsed band geometry img0 restImages
      output_directory

/-- The per-date `logger.info` loop inside the availability listing report. -/
def logDates {D : Type} (l : List D) : M Unit :=
  l.foldr (fun _ k => do logM .info; k) (pure ())

/-- The availability-indexing loop of `generate_HLS_timeseries` (lines
167-205): one catalog listing per tile, partitioned into per-sensor
sorted-unique date lists; a tile empty for both sensors gets a warning and an
empty calendar; the running date accumulator collects every date seen. -/
def indexLoop {D : Type} [LinearOrder D] (env : Env D)
    (start_date_UTC end_date_UTC : Option D) : List String → M (Cal D × List D)
  | [] => pure ([], [])
  | tile :: rest => do
    logM .info
    record (.listingQuery tile)
    let listing ← liftE (env.listing tile start_date_UTC end_date_UTC)
    let s30_dates := sortDedup ((listing.filter (·.sentinel)).map (·.date_UTC))
    let l30_dates := sortDedup ((listing.filter (·.landsat)).map (·.date_UTC))
    if s30_dates = [] ∧ l30_dates = [] then do
      logM .warning
      let (calRest, datesRest) ← indexLoop env start_date_UTC end_date_UTC rest
      pure ((tile, ⟨[], []⟩) :: calRest, datesRest)
    else do
      if s30_dates ≠ [] then do logM .info; logDates s30_dates else pure ()
      if l30_dates ≠ [] then do logM .info; logDates l30_dates else pure ()
      let (calRest, datesRest) ← indexLoop env start_date_UTC end_date_UTC rest
      pure ((tile, ⟨s30_dates, l30_dates⟩) :: calRest,
            s30_dates ++ l30_dates ++ datesRest)

/-- Lines 160-210: run the indexing loop, then sort the accumulated set-union
of dates ascending into the global date universe. -/
def indexTiles {D : Type} [LinearOrder D] (env : Env D)
    (start_date_UTC end_date_UTC : Option D) (tiles : List String) :
    M (Cal D × List D) := do
  let (cal, dates) ← indexLoop env start_date_UTC end_date_UTC tiles
  let all_dates := sortDedup dates
  logM .info
  pure (cal, all_dates)

/-- An `Optional[Union[str, List[str]]]` argument. -/
inductive OptStrs
  | noneV
  | single (s : String)
  | listV (l : List String)
deriving DecidableEq, Repr

/-- The module-level default band list `BANDS`. -/
def BANDS : List String :=
  ["red", "green", "blue", "coastal_aerosol", "NIR", "rededge1", "rededge2",
   "rededge3", "NIR_broad", "SWIR1", "SWIR2", "water_vapor", "cirrus"]

/-- Lines 94-101: `None` becomes the default `BANDS`, a bare string becomes a
one-element list. -/
def normalize_bands : OptStrs → List String
  | .noneV => BANDS
  | .single s => [s]
  | .listV l => l

/-- Lines 108-124: derive tiles from the geometry when absent (recording the
tile-lookup collaborator call), fall back to the empty list, promote a bare
string to a one-element list. -/
def resolveTiles {D : Type} (env : Env D) : OptStrs → Option Geom → M (List String)
  | .noneV, some (.bbox b) => do record .tileLookup; pure (env.tilesFromBbox b)
  | .noneV, some (.grid g) => do record .tileLookup; pure (env.tilesFromGeom g)
  | .noneV, none => pure []
  | .single s, _ => pure [s]
  | .listV l, _ => pure l

/-- `os.path.join` whose first argument may be Python `None` (in which case the
call raises `TypeError`, as when both output and download directories are
unset). -/
def joinOptM (a? : Option String) (b : String) : M String :=
  match a? with
  | some a => pure (pjoin a b)
  | none => throwM .typeError

/-- Append an optional produced filename, as in `if filename:
output_filenames.append(filename)` (produced filenames end in `.tif`, so they
are never the empty, falsy string). -/
def optCons {α : Type} : Option α → List α → List α
  | some a, l => a :: l
  | none, l => l

/-- The guarded per-tile unit of the `HLS` branch (lines 236-266): fetch the
sensor-combined product; without a geometry persist one per-tile file at once
(`HLS_{band}_{tile}_{YYYYMMDD}.tif`), with a geometry hand the image back for
the mosaic; any failure is logged at error level and skipped. -/
def hlsTileStep {D : Type} (env : Env D) (fmt : D → String) (d_parsed : D)
    (band tile : String) (geometry : Option Geom) (band_output_dir : String) :
    M (Option (Image ⊕ String)) :=
  tryCatchM
    (do
      record (.combinedQuery band tile)
      let image ← liftE (env.product band d_parsed tile)
      match geometry with
      | none => do
        let filename := pjoin band_output_dir
          ("HLS_" ++ band ++ "_" ++ tile ++ "_" ++ fmt d_parsed ++ ".tif")
        let directory := dirname (expanduser filename)
        if directory ≠ "" then mkdirsM directory true else pure ()
        logM .info
        writeM env image (expanduser filename)
        pure (some (Sum.inr filename))
      | some _ => pure (some (Sum.inl image)))
    (fun _ => do logM .error; pure none)

/-- The `source == "HLS"` per-tile loop (lines 226-266): run `hlsTileStep` on
every tile with availability on this date, collecting images (geometry case)
and written per-tile filenames (no-geometry case) in tile order. -/
def hlsTileLoop {D : Type} [DecidableEq D] (env : Env D) (fmt : D → String)
    (d d_parsed : D) (band : String) (cal : Cal D) (geometry : Option Geom)
    (band_output_dir : String) : List String → M (List Image × List String)
  | [] => pure ([], [])
  | tile :: rest => do
    let available_dates := calGet cal tile "S30" ++ calGet cal tile "L30"
    if d ∈ available_dates then do
      logM .info
      let step ← hlsTileStep env fmt d_parsed band tile geometry band_output_dir
      let (restImages, restFiles) ←
        hlsTileLoop env fmt d d_parsed band cal geometry band_output_dir rest
      match step with
      | some (.inl image) => pure (image :: restImages, restFiles)
      | some (.inr f) => pure (restImages, f :: restFiles)
      | none => pure (restImages, restFiles)
    else
      hlsTileLoop env fmt d d_parsed band cal geometry band_output_dir rest

/-- The `source == "HLS"` mosaic step (lines 269-294), reached when a geometry
was supplied and at least one image was collected; the grid derivation
duplicates the one in `process_sensor_mosaic`. -/
def hlsMosaicStep {D : Type} (env : Env D) (fmt : D → String) (d_parsed : D)
    (band : String) (geometry : Geom) (img0 : Image) (restImages : List Image)
    (band_output_dir : String) : M (Option String) :=
  tryCatchM
    (do
      let filename := pjoin band_output_dir
        ("HLS_" ++ band ++ "_" ++ fmt d_parsed ++ ".tif")
      let mosaic_geometry ←
        match geometry with
        | .bbox b => do
          let target_bbox ← liftE (env.toCrs b img0.geometry.crs)
          let grid ← liftE (env.gridFromBbox target_bbox img0.geometry.cell_size
            img0.geometry.crs)
          pure (Geom.grid grid)
        | .grid g => pure (Geom.grid g)
      record (.mosaicCall mosaic_geometry)
      let composite ← liftE (env.mosaic (img0 :: restImages) mosaic_geometry)
      let directory := dirname (expanduser filename)
      if directory ≠ "" then mkdirsM directory true else pure ()
      logM .info
      writeM env composite (expanduser filename)
      pure (some filename))
    (fun _ => do logM .error; pure none)

/-- The single-sensor no-geometry tile loop (lines 299-305 and 314-320). -/
def sensorTileLoop {D : Type} [DecidableEq D] (env : Env D) (fmt : D → String)
    (sensor : String) (d d_parsed : D) (band : String) (cal : Cal D)
    (band_output_dir : String) : List String → M (List String)
  | [] => pure []
  | tile :: rest => do
    let available_dates := calGet cal tile sensor
    if d ∈ available_dates then do
      let filename ← process_sensor_band env fmt sensor d d_parsed band tile
        band_output_dir
      let restFiles ← sensorTileLoop env fmt sensor d d_parsed band cal
        band_output_dir rest
      pure (optCons filename restFiles)
    else
      sensorTileLoop env fmt sensor d d_parsed band cal band_output_dir rest

/-- One `for sensor in ["S30", "L30"]` iteration of the `both` no-geometry
loop (lines 334-341). -/
def bothSensorStep {D : Type} [DecidableEq D] (env : Env D) (fmt : D → String)
    (sensor : String) (d d_parsed : D) (band : String) (cal : Cal D)
    (tile : String) (sensor_output_dir : String) : M (Option String) := do
  let available_dates := calGet cal tile sensor
  if d ∈ available_dates then
    process_sensor_band env fmt sensor d d_parsed band tile sensor_output_dir
  else
    pure none

/-- The `source == "both"` no-geometry tile loop (lines 332-341): each tile is
processed for S30 then L30 into the sensor-segregated directories. -/
def bothTileLoop {D : Type} [DecidableEq D] (env : Env D) (fmt : D → String)
    (d d_parsed : D) (band : String) (cal : Cal D)
    (s30_output_dir l30_output_dir : String) : List String → M (List String)
  | [] => pure []
  | tile :: rest => do
    let fS ← bothSensorStep env fmt "S30" d d_parsed band cal tile s30_output_dir
    let fL ← bothSensorStep env fmt "L30" d d_parsed band cal tile l30_output_dir
    let restFiles ← bothTileLoop env fmt d d_parsed band cal s30_output_dir
      l30_output_dir rest
    pure (optCons fS (optCons fL restFiles))

/-- The per-(date, band) dispatch on the source mode (lines 218-347).  The
`band_output_dir` join of line 221 is performed at the head of each
non-`both` branch, which is effect-equivalent to the source's hoisted
assignment. -/
def dispatchBand {D : Type} [DecidableEq D] (env : Env D) (fmt : D → String)
    (source : String) (d d_parsed : D) (band : String) (tiles : List String)
    (cal : Cal D) (geometry : Option Geom) (output_directory : Option String) :
    M (List String) :=
  if source = "HLS" then do
    let band_output_dir ← joinOptM output_directory band
    let (images, files) ←
      hlsTileLoop env fmt d d_parsed band cal geometry band_output_dir tiles
    match geometry, images with
    | some g, img0 :: restImages => do
      let mosaicFile ← hlsMosaicStep env fmt d_parsed band g img0 restImages
        band_output_dir
      pure (files ++ optCons mosaicFile [])
    | _, _ => pure files
  else if source = "S30" then do
    let band_output_dir ← joinOptM output_directory band
    match geometry with
    | none => sensorTileLoop env fmt "S30" d d_parsed band cal band_output_dir tiles
    | some g => do
      let filename ← process_sensor_mosaic env fmt "S30" d d_parsed band tiles
        cal g band_output_dir
      pure (optCons filename [])
  else if source = "L30" then do
    let band_output_dir ← joinOptM output_directory band
    match geometry with
    | none => sensorTileLoop env fmt "L30" d d_parsed band cal band_output_dir tiles
    | some g => do
      let filename ← process_sensor_mosaic env fmt "L30" d d_parsed band tiles
        cal g band_output_dir
      pure (optCons filename [])
  else if source = "both" then do
    let s30_base ← joinOptM output_directory "S30"
    let s30_output_dir := pjoin s30_base band
    let l30_base ← joinOptM output_directory "L30"
    let l30_output_dir := pjoin l30_base band
    match geometry with
    | none =>
      bothTileLoop env fmt d d_parsed band cal s30_output_dir l30_output_dir tiles
    | some g => do
      let fS ← process_sensor_mosaic env fmt "S30" d d_parsed band tiles cal g
        s30_output_dir
      let fL ← process_sensor_mosaic env fmt "L30" d d_parsed band tiles cal g
        l30_output_dir
      pure (optCons fS (optCons fL []))
  else
    pure []

/-- The middle loop over bands (line 218), concatenating produced filenames in
iteration order. -/
def bandLoop {D : Type} [DecidableEq D] (env : Env D) (fmt : D → String)
    (source : String) (d d_parsed : D) (tiles : List String) (cal : Cal D)
    (geometry : Option Geom) (output_directory : Option String) :
    List String → M (List String)
  | [] => pure []
  | band :: rest => do
    let files ← dispatchBand env fmt source d d_parsed band tiles cal geometry
      output_directory
    let restFiles ← bandLoop env fmt source d d_parsed tiles cal geometry
      output_directory rest
    pure (files ++ restFiles)

/-- The outer loop over the date universe (line 213); `parser.parse(d).date()`
is the identity on the already-normalized date values. -/
def dateLoop {D : Type} [DecidableEq D] (env : Env D) (fmt : D → String)
    (source : String) (tiles : List String) (cal : Cal D)
    (geometry : Option Geom) (output_directory : Option String)
    (bands : List String) : List D → M (List String)
  | [] => pure []
  | d :: rest => do
    let d_parsed := d
    let files ← bandLoop env fmt source d d_parsed tiles cal geometry
      output_directory bands
    let restFiles ← dateLoop env fmt source tiles cal geometry output_directory
      bands rest
    pure (files ++ restFiles)

/-- Lines 152-155: `output_directory` defaults to `download_directory`. -/
def resolveOut (output_directory download_directory : Option String) :
    Option String :=
  match output_directory with
  | some o => some o
  | none => download_directory

/-- Embedding of `generate_HLS_timeseries.py::generate_HLS_timeseries`:
validate the source mode, normalize bands, require tiles or geometry, resolve
tiles, log parameters, default the output directory to the download directory,
index availability once, then iterate dates x bands dispatching on the source
mode.  String dates are modelled post-`dateutil` normalization. -/
def generate_HLS_timeseries {D : Type} [LinearOrder D] (env : Env D)
    (fmt : D → String) (bands : OptStrs) (tiles : OptStrs)
    (geometry : Option Geom) (start_date_UTC end_date_UTC : Option D)
    (download_directory output_directory : Option String) (source : String) :
    M (List String) :=
  if source ∉ (["HLS", "S30", "L30", "both"] : List String) then
    throwM .valueError
  else
    let bands' := normalize_bands bands
    if tiles = OptStrs.noneV ∧ geometry = none then
      throwM .valueError
    else do
      let tiles' ← resolveTiles env tiles geometry
      logM .info; logM .info; logM .info; logM .info; logM .info; logM .info
      let output_directory := resolveOut output_directory download_directory
      logM .info
      let (cal, all_dates) ← indexTiles env start_date_UTC end_date_UTC tiles'
      dateLoop env fmt source tiles' cal geometry output_directory bands'
        all_dates

/-! Run equations for the effect monad, used to evaluate the embedding inside
proofs. -/

theorem run_pure {α : Type} (a : α) (st : St) :
    (Pure.pure a : M α) st = (.ok a, st) := rfl

theorem run_bind {α β : Type} (x : M α) (f : α → M β) (st : St) :
    (x >>= f) st =
      match x st with
      | (.ok a, st') => f a st'
      | (.error e, st') => (.error e, st') := rfl

theorem run_bind_ok {α β : Type} {x : M α} {st st' : St} {a : α}
    (f : α → M β) (h : x st = (.ok a, st')) : (x >>= f) st = f a st' := by
  rw [run_bind, h]

theorem run_bind_err {α β : Type} {x : M α} {st st' : St} {e : PyErr}
    (f : α → M β) (h : x st = (.error e, st')) :
    (x >>= f) st = (.error e, st') := by
  rw [run_bind, h]

theorem run_tryCatch_ok {α : Type} {x : M α} {st st' : St} {a : α}
    (h : PyErr → M α) (hx : x st = (.ok a, st')) :
    tryCatchM x h st = (.ok a, st') := by
  simp [tryCatchM, hx]

theorem run_tryCatch_err {α : Type} {x : M α} {st st' : St} {e : PyErr}
    (h : PyErr → M α) (hx : x st = (.error e, st')) :
    tryCatchM x h st = h e st' := by
  simp [tryCatchM, hx]

theorem run_record (e : Event) (st : St) :
    record e st = (.ok (), { st with events := e :: st.events }) := rfl

theorem run_logM (lvl : LogLevel) (st : St) :
    logM lvl st = (.ok (), { st with events := .logged lvl :: st.events }) := rfl

theorem run_throwM {α : Type} (e : PyErr) (st : St) :
    (throwM e : M α) st = (.error e, st) := rfl

theorem run_liftE_ok {α : Type} {r : Except PyErr α} {a : α} (st : St)
    (h : r = .ok a) : liftE r st = (.ok a, st) := by
  simp [liftE, h]

theorem run_liftE_err {α : Type} {r : Except PyErr α} {e : PyErr} (st : St)
    (h : r = .error e) : liftE r st = (.error e, st) := by
  simp [liftE, h]

theorem run_mkdirs (dir : String) (st : St) :
    mkdirsM dir true st =
      (.ok (), { st with events := .mkdirCall dir :: st.events,
                         dirs := insertNew dir st.dirs }) := by
  simp [mkdirsM]

theorem run_writeM_ok {D : Type} {env : Env D} {img : Image} {path : String}
    (st : St) (h : env.toGeotiff img path = .ok ()) :
    writeM env img path st =
      (.ok (), { st with events := .writeFile path :: st.events,
                         files := insertNew path st.files }) := by
  simp [writeM, h]

theorem run_writeM_err {D : Type} {env : Env D} {img : Image} {path : String}
    {e : PyErr} (st : St) (h : env.toGeotiff img path = .error e) :
    writeM env img path st = (.error e, st) := by
  simp [writeM, h]

/-! Facts about `sortDedup`: it enumerates exactly the elements of its input,
strictly ascending (hence duplicate-free). -/

theorem mem_insortND {D : Type} [LinearOrder D] {x y : D} {l : List D} :
    y ∈ insortND x l ↔ y = x ∨ y ∈ l := by
  induction l with
  | nil => simp [insortND]
  | cons z zs ih =>
    simp only [insortND]
    split_ifs with h1 _h2
    · subst h1
      simp only [List.mem_cons]
      tauto
    · simp only [List.mem_cons]
    · simp only [List.mem_cons, ih]
      tauto

theorem sorted_insortND {D : Type} [LinearOrder D] {x : D} {l : List D}
    (h : l.Sorted (· < ·)) : (insortND x l).Sorted (· < ·) := by
  induction l with
  | nil => simp [insortND]
  | cons z zs ih =>
    rw [List.sorted_cons] at h
    obtain ⟨hz, hzs⟩ := h
    simp only [insortND]
    split_ifs with h1 h2
    · exact List.sorted_cons.mpr ⟨hz, hzs⟩
    · refine List.sorted_cons.mpr ⟨?_, List.sorted_cons.mpr ⟨hz, hzs⟩⟩
      intro b hb
      rcases List.mem_cons.mp hb with rfl | hb
      · exact lt_of_le_of_ne h2 h1
      · exact lt_of_le_of_lt (le_of_lt (lt_of_le_of_ne h2 h1)) (hz b hb)
    · refine List.sorted_cons.mpr ⟨?_, ih hzs⟩
      intro b hb
      rcases mem_insortND.mp hb with rfl | hb
      · exact lt_of_not_le h2
      · exact hz b hb

theorem mem_sortDedup {D : Type} [LinearOrder D] {y : D} {l : List D} :
    y ∈ sortDedup l ↔ y ∈ l := by
  induction l with
  | nil => simp [sortDedup]
  | cons z zs ih =>
    simp only [sortDedup, List.foldr_cons, mem_insortND, List.mem_cons]
    rw [show zs.foldr insortND [] = sortDedup zs from rfl] at *
    tauto

theorem sorted_sortDedup {D : Type} [LinearOrder D] (l : List D) :
    (sortDedup l).Sorted (· < ·) := by
  induction l with
  | nil => simp [sortDedup]
  | cons z zs ih =>
    simpa only [sortDedup, List.foldr_cons] using sorted_insortND ih

theorem nodup_sortDedup {D : Type} [LinearOrder D] (l : List D) :
    (sortDedup l).Nodup := (sorted_sortDedup l).nodup

theorem bind_eq {α β : Type} (x : M α) (f : α → M β) :
    (x >>= f) = mbind x f := rfl

theorem pure_eq {α : Type} (a : α) : (Pure.pure a : M α) = mpure a := rfl

/-- A `try/except` whose handler always succeeds never lets an exception
escape. -/
theorem tryCatch_total {α : Type} (x : M α) (h : PyErr → M α)
    (hh : ∀ e st, ∃ r st', h e st = (.ok r, st')) (st : St) :
    ∃ r st', tryCatchM x h st = (.ok r, st') := by
  rcases hx : x st with ⟨res, st1⟩
  cases res with
  | ok a => exact ⟨a, st1, run_tryCatch_ok _ hx⟩
  | error e =>
    obtain ⟨r, st', hr⟩ := hh e st1
    exact ⟨r, st', by rw [run_tryCatch_err _ hx]; exact hr⟩

/-- A trivial concrete environment over `Nat` dates, used to instantiate
universally quantified theorems at concrete inputs. -/
def trivEnv : Env Nat := {
  listing := fun _ _ _ => .ok [],
  sentinel := fun _ _ => .ok 0,
  landsat := fun _ _ => .ok 0,
  product := fun _ _ _ => .ok ⟨0, ⟨0, 0⟩⟩,
  granuleProduct := fun _ _ => .ok ⟨0, ⟨0, 0⟩⟩,
  toGeotiff := fun _ _ => .ok (),
  tilesFromBbox := fun _ => [],
  tilesFromGeom := fun _ => [],
  toCrs := fun b _ => .ok b,
  gridFromBbox := fun _ _ _ => .ok ⟨0⟩,
  mosaic := fun _ _ => .ok ⟨0, ⟨0, 0⟩⟩ }

/-- C1: with an invalid source mode, or with both tiles and geometry absent,
`generate_HLS_timeseries` raises `ValueError` leaving the run state untouched:
no catalog query, no tile lookup, no directory creation and no file write has
happened. -/
theorem generate_preflight_validation {D : Type} [LinearOrder D] (env : Env D)
    (fmt : D → String) (bands tiles : OptStrs) (geometry : Option Geom)
    (sUTC eUTC : Option D) (dl out : Option String) (source : String) (st : St)
    (h : source ∉ (["HLS", "S30", "L30", "both"] : List String) ∨
         (tiles = OptStrs.noneV ∧ geometry = none)) :
    generate_HLS_timeseries env fmt bands tiles geometry sUTC eUTC dl out
      source st = (.error .valueError, st) := by
  by_cases hs : source ∉ (["HLS", "S30", "L30", "both"] : List String)
  · rw [generate_HLS_timeseries.eq_def, if_pos hs]; rfl
  · rcases h with h | h
    · exact absurd h hs
    · rw [generate_HLS_timeseries.eq_def, if_neg hs, if_pos h]; rfl

/-- C1 witness: calling with neither tiles nor geometry aborts with
`ValueError` and an unchanged state. -/
theorem generate_preflight_validation_witness :
    generate_HLS_timeseries trivEnv Nat.repr .noneV .noneV none none none none
        none "S30" st0 = (.error .valueError, st0) :=
  generate_preflight_validation trivEnv Nat.repr .noneV .noneV none none none
    none none "S30" st0 (Or.inr ⟨rfl, rfl⟩)

/-- C3: `process_sensor_band` never lets an exception reach its caller; a band
lookup that fails with `AttributeError`/`KeyError` yields `None` with a
warning-level log; a failure of granule resolution, any other band-extraction
failure, or a persistence failure yields `None` with an error-level log. -/
theorem process_sensor_band_error_isolation {D : Type} (env : Env D)
    (fmt : D → String) (sensor : String) (d d_parsed : D)
    (band tile dir : String) (st : St) :
    (∃ r st', process_sensor_band env fmt sensor d d_parsed band tile dir st =
      (.ok r, st'))
    ∧ (∀ g, granuleOf env sensor tile d_parsed = .ok g →
        (env.granuleProduct g band = .error .attributeError ∨
         env.granuleProduct g band = .error .keyError) →
        (process_sensor_band env fmt sensor d d_parsed band tile dir st).1 =
          .ok none ∧
        Event.logged .warning ∈
          (process_sensor_band env fmt sensor d d_parsed band tile dir st).2.events)
    ∧ (∀ e, granuleOf env sensor tile d_parsed = .error e →
        (process_sensor_band env fmt sensor d d_parsed band tile dir st).1 =
          .ok none ∧
        Event.logged .error ∈
          (process_sensor_band env fmt sensor d d_parsed band tile dir st).2.events)
    ∧ (∀ g e, granuleOf env sensor tile d_parsed = .ok g →
        env.granuleProduct g band = .error e →
        e ≠ .attributeError → e ≠ .keyError →
        (process_sensor_band env fmt sensor d d_parsed band tile dir st).1 =
          .ok none ∧
        Event.logged .error ∈
          (process_sensor_band env fmt sensor d d_parsed band tile dir st).2.events)
    ∧ (∀ g img e, granuleOf env sensor tile d_parsed = .ok g →
        env.granuleProduct g band = .ok img →
        env.toGeotiff img
          (expanduser (bandFilename fmt sensor band tile d_parsed dir)) =
          .error e →
        (process_sensor_band env fmt sensor d d_parsed band tile dir st).1 =
          .ok none ∧
        Event.logged .error ∈
          (process_sensor_band env fmt sensor d d_parsed band tile dir st).2.events) := by
  refine ⟨?_, ?_, ?_, ?_, ?_⟩
  · simp only [process_sensor_band, bind_eq, mbind, run_logM]
    exact tryCatch_total _ _ (fun e st => ⟨none, _, rfl⟩) _
  · intro g hg hp
    rcases hp with hp | hp <;>
      simp [process_sensor_band, getGranule, bind_eq, pure_eq, mbind, mpure,
        tryCatchM, logM, record, liftE, throwM, hg, hp]
  · intro e he
    simp [process_sensor_band, getGranule, bind_eq, pure_eq, mbind, mpure,
      tryCatchM, logM, record, liftE, throwM, he]
  · intro g e hg hp hne1 hne2
    cases e with
    | attributeError => exact absurd rfl hne1
    | keyError => exact absurd rfl hne2
    | valueError =>
      simp [process_sensor_band, getGranule, bind_eq, pure_eq, mbind, mpure,
        tryCatchM, logM, record, liftE, throwM, hg, hp]
    | typeError =>
      simp [process_sensor_band, getGranule, bind_eq, pure_eq, mbind, mpure,
        tryCatchM, logM, record, liftE, throwM, hg, hp]
    | fileExistsError =>
      simp [process_sensor_band, getGranule, bind_eq, pure_eq, mbind, mpure,
        tryCatchM, logM, record, liftE, throwM, hg, hp]
    | otherError =>
      simp [process_sensor_band, getGranule, bind_eq, pure_eq, mbind, mpure,
        tryCatchM, logM, record, liftE, throwM, hg, hp]
  · intro g img e hg hp hw
    by_cases hdd :
        dirname (expanduser (bandFilename fmt sensor band tile d_parsed dir)) = "" <;>
      simp [process_sensor_band, getGranule, bind_eq, pure_eq, mbind, mpure,
        tryCatchM, logM, record, liftE, throwM, mkdirsM, writeM, hg, hp, hw, hdd]

theorem mbind_ok {α β : Type} {x : M α} {st st' : St} {a : α}
    (f : α → M β) (h : x st = (.ok a, st')) : mbind x f st = f a st' := by
  simp [mbind, h]

theorem resolveTiles_listV {D : Type} (env : Env D) (l : List String)
    (geometry : Option Geom) :
    resolveTiles env (.listV l) geometry = pure l := by
  cases geometry with
  | none => rfl
  | some g => cases g <;> rfl

/-- Evaluation seam for the orchestrator: with a valid source mode and an
explicit tile list, `generate_HLS_timeseries` runs the indexer on the state
reached after the seven parameter-log records and continues into the date
loop with the indexed calendar and date universe. -/
theorem generate_valid_run {D : Type} [LinearOrder D] (env : Env D)
    (fmt : D → String) (bandsArg : OptStrs) (l : List String)
    (geometry : Option Geom) (sUTC eUTC : Option D) (dl out : Option String)
    (source : String)
    (hs : source ∈ (["HLS", "S30", "L30", "both"] : List String)) (st : St)
    {cal : Cal D} {dates : List D} {st1 : St}
    (hidx : indexTiles env sUTC eUTC l
      { st with events := (.logged .info :: .logged .info :: .logged .info ::
        .logged .info :: .logged .info :: .logged .info :: .logged .info ::
        st.events) } = (.ok (cal, dates), st1)) :
    generate_HLS_timeseries env fmt bandsArg (.listV l) geometry sUTC eUTC dl
      out source st =
    dateLoop env fmt source l cal geometry (resolveOut out dl)
      (normalize_bands bandsArg) dates st1 := by
  rw [generate_HLS_timeseries.eq_def, if_neg (not_not_intro hs),
    if_neg (by simp)]
  simp only [resolveTiles_listV, bind_eq, pure_eq, mbind, mpure, logM, record]
  rw [hidx]

/-- Evaluation seam for the orchestrator when the indexer raises: the
exception propagates out of `generate_HLS_timeseries`. -/
theorem generate_valid_run_err {D : Type} [LinearOrder D] (env : Env D)
    (fmt : D → String) (bandsArg : OptStrs) (l : List String)
    (geometry : Option Geom) (sUTC eUTC : Option D) (dl out : Option String)
    (source : String)
    (hs : source ∈ (["HLS", "S30", "L30", "both"] : List String)) (st : St)
    {e : PyErr} {st1 : St}
    (hidx : indexTiles env sUTC eUTC l
      { st with events := (.logged .info :: .logged .info :: .logged .info ::
        .logged .info :: .logged .info :: .logged .info :: .logged .info ::
        st.events) } = (.error e, st1)) :
    generate_HLS_timeseries env fmt bandsArg (.listV l) geometry sUTC eUTC dl
      out source st = (.error e, st1) := by
  rw [generate_HLS_timeseries.eq_def, if_neg (not_not_intro hs),
    if_neg (by simp)]
  simp only [resolveTiles_listV, bind_eq, pure_eq, mbind, mpure, logM, record]
  rw [hidx]

/-- The raster image served by the scenario environment. -/
def scenarioImage : Image := ⟨7, ⟨32610, 30⟩⟩

/-- Concrete catalog for the end-to-end scenario: tile `10SEG`, S30
availability exactly on 2022-08-03 inside 2022-08-01..2022-08-05, band `red`
extractable, persistence succeeding. -/
def scenarioEnv : Env Nat := {
  listing := fun tile _ _ =>
    if tile = "10SEG" then .ok [⟨20220803, true, false⟩] else .ok [],
  sentinel := fun tile dd =>
    if tile = "10SEG" ∧ dd = 20220803 then .ok 7 else .error .otherError,
  landsat := fun _ _ => .error .otherError,
  product := fun _ _ _ => .error .otherError,
  granuleProduct := fun g band =>
    if g = 7 ∧ band = "red" then .ok scenarioImage else .error .keyError,
  toGeotiff := fun _ _ => .ok (),
  tilesFromBbox := fun _ => [],
  tilesFromGeom := fun _ => [],
  toCrs := fun b _ => .ok b,
  gridFromBbox := fun _ _ _ => .ok ⟨0⟩,
  mosaic := fun _ _ => .ok ⟨0, ⟨0, 0⟩⟩ }

/-- C6: on a successful extraction `process_sensor_band` returns exactly the
deterministic path `{dir}/{sensor}_{band}_{tile}_{YYYYMMDD}.tif`, and in the
end-to-end scenario (tile `10SEG`, range 2022-08-01..2022-08-05, band `red`,
source `S30`, no geometry, S30 availability only on 2022-08-03, output
directory `""`) the orchestrator returns exactly the one path
`red/S30_red_10SEG_20220803.tif`. -/
theorem band_output_filename_deterministic :
    (∀ (D : Type) (env : Env D) (fmt : D → String) (sensor : String)
      (d d_parsed : D) (band tile dir : String) (st : St) (g : Nat)
      (img : Image),
      granuleOf env sensor tile d_parsed = .ok g →
      env.granuleProduct g band = .ok img →
      env.toGeotiff img
        (expanduser (bandFilename fmt sensor band tile d_parsed dir)) =
        .ok () →
      (process_sensor_band env fmt sensor d d_parsed band tile dir st).1 =
        .ok (some (bandFilename fmt sensor band tile d_parsed dir)))
    ∧ (generate_HLS_timeseries scenarioEnv Nat.repr (.single "red")
        (.listV ["10SEG"]) none (some 20220801) (some 20220805) none (some "")
        "S30" st0).1 = .ok ["red/S30_red_10SEG_20220803.tif"] := by
  constructor
  · intro D env fmt sensor d dp band tile dir st g img hg hp hw
    by_cases hdd :
        dirname (expanduser (bandFilename fmt sensor band tile dp dir)) = "" <;>
      simp [process_sensor_band, getGranule, bind_eq, pure_eq, mbind, mpure,
        tryCatchM, logM, record, liftE, throwM, mkdirsM, writeM, hg, hp, hw, hdd]
  · have hidx : indexTiles scenarioEnv (some 20220801) (some 20220805)
        ["10SEG"]
        { st0 with events := (.logged .info :: .logged .info :: .logged .info ::
          .logged .info :: .logged .info :: .logged .info :: .logged .info ::
          st0.events) } =
        (.ok ([("10SEG", ⟨[20220803], []⟩)], [20220803]),
         ⟨[.logged .info, .logged .info, .logged .info, .listingQuery "10SEG",
           .logged .info, .logged .info, .logged .info, .logged .info,
           .logged .info, .logged .info, .logged .info, .logged .info],
          [], []⟩) := by decide
    rw [generate_valid_run scenarioEnv Nat.repr (.single "red") ["10SEG"] none
      (some 20220801) (some 20220805) none (some "") "S30" (by decide) st0 hidx]
    decide

/-- C6 witness: the general filename law applied at a concrete input. -/
theorem band_output_filename_deterministic_witness :
    (process_sensor_band trivEnv Nat.repr "S30" 20220803 20220803 "red" "10SEG"
        "out" st0).1 =
      .ok (some (bandFilename Nat.repr "S30" "red" "10SEG" 20220803 "out")) :=
  band_output_filename_deterministic.1 Nat trivEnv Nat.repr "S30" 20220803
    20220803 "red" "10SEG" "out" st0 0 ⟨0, ⟨0, 0⟩⟩ rfl rfl rfl

/-- A concrete environment whose catalog listing raises on tile `T1` and
succeeds on every other tile. -/
def failEnv : Env Nat :=
  { trivEnv with listing := fun tile _ _ =>
      if tile = "T1" then .error .otherError else .ok [] }

/-- C2 counterexample: with two tiles and a catalog listing that raises on the
first, the exception propagates out of `generate_HLS_timeseries` (it is not
caught and logged) and the second tile is never queried, refuting the claim at
this input. -/
theorem listing_failure_not_caught_cx :
    (generate_HLS_timeseries failEnv Nat.repr (.single "red")
        (.listV ["T1", "T2"]) none (some 20220801) (some 20220805) none
        (some "") "S30" st0).1 = .error .otherError ∧
    Event.listingQuery "T2" ∉
      (generate_HLS_timeseries failEnv Nat.repr (.single "red")
        (.listV ["T1", "T2"]) none (some 20220801) (some 20220805) none
        (some "") "S30" st0).2.events := by
  have hidx : indexTiles failEnv (some 20220801) (some 20220805) ["T1", "T2"]
      { st0 with events := (.logged .info :: .logged .info :: .logged .info ::
        .logged .info :: .logged .info :: .logged .info :: .logged .info ::
        st0.events) } =
      (.error .otherError,
       ⟨[.listingQuery "T1", .logged .info, .logged .info, .logged .info,
         .logged .info, .logged .info, .logged .info, .logged .info,
         .logged .info], [], []⟩) := by decide
  rw [generate_valid_run_err failEnv Nat.repr (.single "red") ["T1", "T2"] none
    (some 20220801) (some 20220805) none (some "") "S30" (by decide) st0 hidx]
  exact ⟨rfl, by decide⟩

/-- C2 amended: a catalog listing exception for the first tile is not caught
by the indexing loop: it propagates out of `generate_HLS_timeseries`, aborting
the run (no zero-availability fallback, no indexing of remaining tiles). -/
theorem listing_failure_propagates {D : Type} [LinearOrder D] (env : Env D)
    (fmt : D → String) (bandsArg : OptStrs) (t : String) (rest : List String)
    (geometry : Option Geom) (sUTC eUTC : Option D) (dl out : Option String)
    (source : String) (st : St) (e : PyErr)
    (hs : source ∈ (["HLS", "S30", "L30", "both"] : List String))
    (hl : env.listing t sUTC eUTC = .error e) :
    (generate_HLS_timeseries env fmt bandsArg (.listV (t :: rest)) geometry
      sUTC eUTC dl out source st).1 = .error e := by
  have hidx : indexTiles env sUTC eUTC (t :: rest)
      { st with events := (.logged .info :: .logged .info :: .logged .info ::
        .logged .info :: .logged .info :: .logged .info :: .logged .info ::
        st.events) } =
      (.error e,
       { st with events := (.listingQuery t :: .logged .info :: .logged .info ::
         .logged .info :: .logged .info :: .logged .info :: .logged .info ::
         .logged .info :: .logged .info :: st.events) }) := by
    simp only [indexTiles, indexLoop, bind_eq, pure_eq, mbind, mpure, logM,
      record, liftE, hl]
  rw [generate_valid_run_err env fmt bandsArg (t :: rest) geometry sUTC eUTC dl
    out source hs st hidx]

/-- C2 amended witness: the propagation law at a concrete input. -/
theorem listing_failure_propagates_witness :
    (generate_HLS_timeseries failEnv Nat.repr .noneV (.listV ["T1"]) none
      (some 20220801) (some 20220805) none (some "") "L30" st0).1 =
      .error .otherError :=
  listing_failure_propagates failEnv Nat.repr .noneV "T1" [] none
    (some 20220801) (some 20220805) none (some "") "L30" st0 .otherError
    (by decide) rfl

/-- A concrete environment on which the `"rededge1"` band is structurally
absent (`KeyError` from `granule.product`). -/
def bandAbsentEnv : Env Nat :=
  { trivEnv with granuleProduct := fun _ _ => .error .keyError }

/-- Fold a list of set-insertions. -/
def insList (ks l : List String) : List String :=
  ks.foldl (fun acc k => insertNew k acc) l

theorem insList_nil (l : List String) : insList [] l = l := rfl

theorem insList_append (k1 k2 l : List String) :
    insList (k1 ++ k2) l = insList k2 (insList k1 l) := by
  simp [insList, List.foldl_append]

theorem mem_insertNew {x y : String} {l : List String} :
    y ∈ insertNew x l ↔ y = x ∨ y ∈ l := by
  unfold insertNew
  split_ifs with h
  · constructor
    · tauto
    · rintro (rfl | hy) <;> assumption
  · simp [List.mem_cons]

theorem mem_insList {y : String} {ks l : List String} :
    y ∈ insList ks l ↔ y ∈ ks ∨ y ∈ l := by
  induction ks generalizing l with
  | nil => simp [insList]
  | cons k ks ih =>
    rw [show insList (k :: ks) l = insList ks (insertNew k l) from rfl, ih,
      mem_insertNew, List.mem_cons]
    tauto

theorem insList_of_subset {ks l : List String} (h : ∀ k ∈ ks, k ∈ l) :
    insList ks l = l := by
  induction ks generalizing l with
  | nil => rfl
  | cons k ks ih =>
    have hk : insertNew k l = l := by
      unfold insertNew
      rw [if_pos (h k (List.mem_cons_self k ks))]
    simp only [insList, List.foldl_cons, hk]
    exact ih fun k' hk' => h k' (List.mem_cons_of_mem _ hk')

theorem insList_idem (ks l : List String) :
    insList ks (insList ks l) = insList ks l :=
  insList_of_subset fun _ hk => mem_insList.mpr (Or.inl hk)

/-- The state-independent summary of one computation: its result, the events
it appends, the directories and the files it creates. -/
structure URun (α : Type) where
  res : Except PyErr α
  ev : List Event
  ds : List String
  fls : List String

/-- A computation runs uniformly as the summary `u`: from any starting state
it yields `u.res`, prepends `u.ev` to the trace, and set-inserts `u.ds` and
`u.fls` into the directories and files. -/
def RunsAs {α : Type} (f : M α) (u : URun α) : Prop :=
  ∀ st, f st =
    (u.res, ⟨u.ev ++ st.events, insList u.ds st.dirs, insList u.fls st.files⟩)

theorem runsAs_mpure {α : Type} (a : α) : RunsAs (mpure a) ⟨.ok a, [], [], []⟩ := by
  intro st
  simp [mpure, insList]

theorem runsAs_pure {α : Type} (a : α) :
    RunsAs (Pure.pure a : M α) ⟨.ok a, [], [], []⟩ := runsAs_mpure a

theorem runsAs_throwM {α : Type} (e : PyErr) :
    RunsAs (throwM e : M α) ⟨.error e, [], [], []⟩ := by
  intro st
  simp [throwM, insList]

theorem runsAs_record (e : Event) : RunsAs (record e) ⟨.ok (), [e], [], []⟩ := by
  intro st
  simp [record, insList]

theorem runsAs_logM (lvl : LogLevel) :
    RunsAs (logM lvl) ⟨.ok (), [.logged lvl], [], []⟩ := runsAs_record _

theorem runsAs_liftE_ok {α : Type} {r : Except PyErr α} {a : α}
    (h : r = .ok a) : RunsAs (liftE r) ⟨.ok a, [], [], []⟩ := by
  intro st
  simp [liftE, h, insList]

theorem runsAs_liftE_err {α : Type} {r : Except PyErr α} {e : PyErr}
    (h : r = .error e) : RunsAs (liftE r) ⟨.error e, [], [], []⟩ := by
  intro st
  simp [liftE, h, insList]

theorem runsAs_liftE {α : Type} (r : Except PyErr α) :
    ∃ u : URun α, RunsAs (liftE r) u ∧ u.res = r ∧ u.ev = [] := by
  cases r with
  | ok a => exact ⟨⟨.ok a, [], [], []⟩, runsAs_liftE_ok rfl, rfl, rfl⟩
  | error e => exact ⟨⟨.error e, [], [], []⟩, runsAs_liftE_err rfl, rfl, rfl⟩

theorem runsAs_mkdirs (dir : String) :
    RunsAs (mkdirsM dir true) ⟨.ok (), [.mkdirCall dir], [dir], []⟩ := by
  intro st
  simp [mkdirsM, insList]

theorem runsAs_writeM_ok {D : Type} {env : Env D} {img : Image} {path : String}
    (h : env.toGeotiff img path = .ok ()) :
    RunsAs (writeM env img path) ⟨.ok (), [.writeFile path], [], [path]⟩ := by
  intro st
  simp [writeM, h, insList]

theorem runsAs_writeM_err {D : Type} {env : Env D} {img : Image} {path : String}
    {e : PyErr} (h : env.toGeotiff img path = .error e) :
    RunsAs (writeM env img path) ⟨.error e, [], [], []⟩ := by
  intro st
  simp [writeM, h, insList]

/-- Sequencing two uniform runs when the first succeeds. -/
theorem runsAs_bind_ok {α β : Type} {x : M α} {f : α → M β} {a : α}
    {ev1 ds1 fls1} {u2 : URun β}
    (hx : RunsAs x ⟨.ok a, ev1, ds1, fls1⟩) (hf : RunsAs (f a) u2) :
    RunsAs (mbind x f) ⟨u2.res, u2.ev ++ ev1, ds1 ++ u2.ds, fls1 ++ u2.fls⟩ := by
  intro st
  simp only [mbind, hx st, hf _, insList_append, List.append_assoc]

/-- Sequencing when the first computation raises. -/
theorem runsAs_bind_err {α β : Type} {x : M α} {f : α → M β} {e : PyErr}
    {ev1 ds1 fls1} (hx : RunsAs x ⟨.error e, ev1, ds1, fls1⟩) :
    RunsAs (mbind x f) ⟨.error e, ev1, ds1, fls1⟩ := by
  intro st
  simp only [mbind, hx st]

theorem runsAs_tryCatch_ok {α : Type} {x : M α} {h : PyErr → M α} {a : α}
    {ev1 ds1 fls1} (hx : RunsAs x ⟨.ok a, ev1, ds1, fls1⟩) :
    RunsAs (tryCatchM x h) ⟨.ok a, ev1, ds1, fls1⟩ := by
  intro st
  simp only [tryCatchM, hx st]

theorem runsAs_tryCatch_err {α : Type} {x : M α} {h : PyErr → M α} {e : PyErr}
    {ev1 ds1 fls1} {u2 : URun α}
    (hx : RunsAs x ⟨.error e, ev1, ds1, fls1⟩) (hh : RunsAs (h e) u2) :
    RunsAs (tryCatchM x h) ⟨u2.res, u2.ev ++ ev1, ds1 ++ u2.ds, fls1 ++ u2.fls⟩ := by
  intro st
  simp only [tryCatchM, hx st, hh _, insList_append, List.append_assoc]

/-- Master summary of `collectTileStep`: it always succeeds, creates no
directory and no file, and emits neither write nor combined-product events. -/
theorem runsAs_collectTileStep {D : Type} (env : Env D) (sensor : String)
    (d_parsed : D) (band tile : String) :
    ∃ u : URun (Option Image),
      RunsAs (collectTileStep env sensor d_parsed band tile) u ∧
      (∃ io, u.res = .ok io) ∧ u.ds = [] ∧ u.fls = [] ∧
      (∀ p, Event.writeFile p ∉ u.ev) ∧
      (∀ b t, Event.combinedQuery b t ∉ u.ev) := by
  rcases hg : granuleOf env sensor tile d_parsed with e | g
  · exact ⟨⟨.ok none, [.logged .error, .granuleQuery sensor tile], [], []⟩,
      fun st => by
        simp [collectTileStep, getGranule, bind_eq, pure_eq, mbind, mpure,
          tryCatchM, logM, record, liftE, throwM, hg, insList],
      ⟨none, rfl⟩, rfl, rfl, by simp, by simp⟩
  · rcases hp : env.granuleProduct g band with e | img
    · refine ⟨⟨.ok none,
        [.logged (match e with
          | .attributeError => .debug
          | .keyError => .debug
          | _ => .error), .bandExtract g band, .granuleQuery sensor tile],
        [], []⟩,
        fun st => ?_, ⟨none, rfl⟩, rfl, rfl, by simp, by simp⟩
      cases e <;>
        simp [collectTileStep, getGranule, bind_eq, pure_eq, mbind, mpure,
          tryCatchM, logM, record, liftE, throwM, hg, hp, insList]
    · exact ⟨⟨.ok (some img),
        [.bandExtract g band, .granuleQuery sensor tile], [], []⟩,
        fun st => by
          simp [collectTileStep, getGranule, bind_eq, pure_eq, mbind, mpure,
            tryCatchM, logM, record, liftE, throwM, hg, hp, insList],
        ⟨some img, rfl⟩, rfl, rfl, by simp, by simp⟩

/-- Master summary of the collection loop: it always succeeds, creates no
directory or file, and emits neither write nor combined-product events. -/
theorem runsAs_collectImages {D : Type} [DecidableEq D] (env : Env D)
    (sensor : String) (d d_parsed : D) (band : String) (cal : Cal D)
    (tiles : List String) :
    ∃ u : URun (List Image),
      RunsAs (collectImages env sensor d d_parsed band cal tiles) u ∧
      (∃ imgs, u.res = .ok imgs) ∧ u.ds = [] ∧ u.fls = [] ∧
      (∀ p, Event.writeFile p ∉ u.ev) ∧
      (∀ b t, Event.combinedQuery b t ∉ u.ev) := by
  induction tiles with
  | nil =>
    exact ⟨⟨.ok [], [], [], []⟩,
      fun st => by simp [collectImages, pure_eq, mpure, insList],
      ⟨[], rfl⟩, rfl, rfl, by simp, by simp⟩
  | cons tile rest ih =>
    obtain ⟨u2, h2, ⟨imgs, hres2⟩, hds2, hfls2, hw2, hc2⟩ := ih
    obtain ⟨u1, h1, ⟨io, hres1⟩, hds1, hfls1, hw1, hc1⟩ :=
      runsAs_collectTileStep env sensor d_parsed band tile
    simp only [RunsAs] at h1 h2
    by_cases hmem : d ∈ calGet cal tile sensor
    · cases io with
      | none =>
        refine ⟨⟨.ok imgs, u2.ev ++ u1.ev ++ [.logged .info], [], []⟩,
          fun st => ?_, ⟨imgs, rfl⟩, rfl, rfl, ?_, ?_⟩
        · simp [collectImages, bind_eq, pure_eq, mbind, mpure, logM, record,
            hmem, h1, h2, hres1, hres2, hds1, hds2, hfls1, hfls2, insList]
        · intro p
          simp [List.mem_append, hw1, hw2]
        · intro b t
          simp [List.mem_append, hc1, hc2]
      | some img =>
        refine ⟨⟨.ok (img :: imgs), u2.ev ++ u1.ev ++ [.logged .info], [], []⟩,
          fun st => ?_, ⟨img :: imgs, rfl⟩, rfl, rfl, ?_, ?_⟩
        · simp [collectImages, bind_eq, pure_eq, mbind, mpure, logM, record,
            hmem, h1, h2, hres1, hres2, hds1, hds2, hfls1, hfls2, insList]
        · intro p
          simp [List.mem_append, hw1, hw2]
        · intro b t
          simp [List.mem_append, hc1, hc2]
    · refine ⟨u2, fun st => ?_, ⟨imgs, hres2⟩, hds2, hfls2, hw2, hc2⟩
      simp [collectImages, hmem, h2]

/-- Master summary of `process_sensor_band`: it always succeeds, returns
either `None` or the deterministic band filename, only ever writes that
filename, and never queries the combined product. -/
theorem runsAs_process_sensor_band {D : Type} (env : Env D) (fmt : D → String)
    (sensor : String) (d d_parsed : D) (band tile dir : String) :
    ∃ u : URun (Option String),
      RunsAs (process_sensor_band env fmt sensor d d_parsed band tile dir) u ∧
      (u.res = .ok none ∨
       u.res = .ok (some (bandFilename fmt sensor band tile d_parsed dir))) ∧
      (∀ p, Event.writeFile p ∈ u.ev →
        p = expanduser (bandFilename fmt sensor band tile d_parsed dir)) ∧
      (∀ b t, Event.combinedQuery b t ∉ u.ev) ∧
      (∀ p, p ∈ u.fls →
        p = expanduser (bandFilename fmt sensor band tile d_parsed dir)) := by
  rcases hg : granuleOf env sensor tile d_parsed with e | g
  · refine ⟨⟨.ok none,
      [.logged .error, .granuleQuery sensor tile, .logged .info], [], []⟩,
      fun st => ?_, Or.inl rfl, by simp, by simp, by simp⟩
    simp [process_sensor_band, getGranule, bind_eq, pure_eq, mbind, mpure,
      tryCatchM, logM, record, liftE, throwM, hg, insList]
  · rcases hp : env.granuleProduct g band with e | img
    · cases e with
      | attributeError =>
        refine ⟨⟨.ok none, [.logged .warning, .bandExtract g band,
          .granuleQuery sensor tile, .logged .info], [], []⟩,
          fun st => ?_, Or.inl rfl, by simp, by simp, by simp⟩
        simp [process_sensor_band, getGranule, bind_eq, pure_eq, mbind, mpure,
          tryCatchM, logM, record, liftE, throwM, hg, hp, insList]
      | keyError =>
        refine ⟨⟨.ok none, [.logged .warning, .bandExtract g band,
          .granuleQuery sensor tile, .logged .info], [], []⟩,
          fun st => ?_, Or.inl rfl, by simp, by simp, by simp⟩
        simp [process_sensor_band, getGranule, bind_eq, pure_eq, mbind, mpure,
          tryCatchM, logM, record, liftE, throwM, hg, hp, insList]
      | valueError =>
        refine ⟨⟨.ok none, [.logged .error, .bandExtract g band,
          .granuleQuery sensor tile, .logged .info], [], []⟩,
          fun st => ?_, Or.inl rfl, by simp, by simp, by simp⟩
        simp [process_sensor_band, getGranule, bind_eq, pure_eq, mbind, mpure,
          tryCatchM, logM, record, liftE, throwM, hg, hp, insList]
      | typeError =>
        refine ⟨⟨.ok none, [.logged .error, .bandExtract g band,
          .granuleQuery sensor tile, .logged .info], [], []⟩,
          fun st => ?_, Or.inl rfl, by simp, by simp, by simp⟩
        simp [process_sensor_band, getGranule, bind_eq, pure_eq, mbind, mpure,
          tryCatchM, logM, record, liftE, throwM, hg, hp, insList]
      | fileExistsError =>
        refine ⟨⟨.ok none, [.logged .error, .bandExtract g band,
          .granuleQuery sensor tile, .logged .info], [], []⟩,
          fun st => ?_, Or.inl rfl, by simp, by simp, by simp⟩
        simp [process_sensor_band, getGranule, bind_eq, pure_eq, mbind, mpure,
          tryCatchM, logM, record, liftE, throwM, hg, hp, insList]
      | otherError =>
        refine ⟨⟨.ok none, [.logged .error, .bandExtract g band,
          .granuleQuery sensor tile, .logged .info], [], []⟩,
          fun st => ?_, Or.inl rfl, by simp, by simp, by simp⟩
        simp [process_sensor_band, getGranule, bind_eq, pure_eq, mbind, mpure,
          tryCatchM, logM, record, liftE, throwM, hg, hp, insList]
    · rcases hw : env.toGeotiff img
          (expanduser (bandFilename fmt sensor band tile d_parsed dir)) with
        e | u
      · by_cases hdd :
            dirname (expanduser (bandFilename fmt sensor band tile d_parsed dir)) = ""
        · refine ⟨⟨.ok none, [.logged .error, .logged .info, .bandExtract g band,
            .granuleQuery sensor tile, .logged .info], [], []⟩,
            fun st => ?_, Or.inl rfl, by simp, by simp, by simp⟩
          simp [process_sensor_band, getGranule, bind_eq, pure_eq, mbind, mpure,
            tryCatchM, logM, record, liftE, throwM, mkdirsM, writeM, hg, hp, hw,
            hdd, insList]
        · refine ⟨⟨.ok none, [.logged .error, .logged .info,
            .mkdirCall (dirname (expanduser
              (bandFilename fmt sensor band tile d_parsed dir))),
            .bandExtract g band, .granuleQuery sensor tile, .logged .info],
            [dirname (expanduser (bandFilename fmt sensor band tile d_parsed dir))],
            []⟩,
            fun st => ?_, Or.inl rfl, by simp, by simp, by simp⟩
          simp [process_sensor_band, getGranule, bind_eq, pure_eq, mbind, mpure,
            tryCatchM, logM, record, liftE, throwM, mkdirsM, writeM, hg, hp, hw,
            hdd, insList]
      · by_cases hdd :
            dirname (expanduser (bandFilename fmt sensor band tile d_parsed dir)) = ""
        · refine ⟨⟨.ok (some (bandFilename fmt sensor band tile d_parsed dir)),
            [.writeFile (expanduser (bandFilename fmt sensor band tile d_parsed dir)),
             .logged .info, .bandExtract g band, .granuleQuery sensor tile,
             .logged .info], [],
            [expanduser (bandFilename fmt sensor band tile d_parsed dir)]⟩,
            fun st => ?_, Or.inr rfl, ?_, by simp, by simp⟩
          · simp [process_sensor_band, getGranule, bind_eq, pure_eq, mbind,
              mpure, tryCatchM, logM, record, liftE, throwM, mkdirsM, writeM,
              hg, hp, hw, hdd, insList]
          · intro p hpe
            simp at hpe
            exact hpe
        · refine ⟨⟨.ok (some (bandFilename fmt sensor band tile d_parsed dir)),
            [.writeFile (expanduser (bandFilename fmt sensor band tile d_parsed dir)),
             .logged .info,
             .mkdirCall (dirname (expanduser
               (bandFilename fmt sensor band tile d_parsed dir))),
             .bandExtract g band, .granuleQuery sensor tile, .logged .info],
            [dirname (expanduser (bandFilename fmt sensor band tile d_parsed dir))],
            [expanduser (bandFilename fmt sensor band tile d_parsed dir)]⟩,
            fun st => ?_, Or.inr rfl, ?_, by simp, by simp⟩
          · simp [process_sensor_band, getGranule, bind_eq, pure_eq, mbind,
              mpure, tryCatchM, logM, record, liftE, throwM, mkdirsM, writeM,
              hg, hp, hw, hdd, insList]
          · intro p hpe
            simp at hpe
            exact hpe

/-- Master summary of `sensorMosaicStep`: it always succeeds, returns either
`None` or the deterministic mosaic filename, only ever writes that filename,
and never queries the combined product. -/
theorem runsAs_sensorMosaicStep {D : Type} (env : Env D) (fmt : D → String)
    (sensor : String) (d_parsed : D) (band : String) (geometry : Geom)
    (img0 : Image) (restImages : List Image) (dir : String) :
    ∃ u : URun (Option String),
      RunsAs (sensorMosaicStep env fmt sensor d_parsed band geometry img0
        restImages dir) u ∧
      (u.res = .ok none ∨
       u.res = .ok (some (mosaicFilename fmt sensor band d_parsed dir))) ∧
      (∀ p, Event.writeFile p ∈ u.ev → p = expanduser (mosaicFilename fmt sensor band d_parsed dir)) ∧
      (∀ b t, Event.combinedQuery b t ∉ u.ev) ∧
      (∀ p, p ∈ u.fls → p = expanduser (mosaicFilename fmt sensor band d_parsed dir)) := by
  rcases geometry with b | g0
  · rcases ht : env.toCrs b img0.geometry.crs with e | b'
    · refine ⟨⟨.ok none, [.logged .error], [], []⟩,
        fun st => ?_, Or.inl rfl, by simp, by simp, by simp⟩
      simp [sensorMosaicStep, bind_eq, pure_eq, mbind, mpure, tryCatchM, logM,
        record, liftE, throwM, ht, insList]
    · rcases hgb : env.gridFromBbox b' img0.geometry.cell_size
          img0.geometry.crs with e | gr
      · refine ⟨⟨.ok none, [.logged .error], [], []⟩,
          fun st => ?_, Or.inl rfl, by simp, by simp, by simp⟩
        simp [sensorMosaicStep, bind_eq, pure_eq, mbind, mpure, tryCatchM,
          logM, record, liftE, throwM, ht, hgb, insList]
      · rcases hm : env.mosaic (img0 :: restImages) (.grid gr) with e | comp
        · refine ⟨⟨.ok none, [.logged .error, .mosaicCall (.grid gr)], [], []⟩,
            fun st => ?_, Or.inl rfl, by simp, by simp, by simp⟩
          simp [sensorMosaicStep, bind_eq, pure_eq, mbind, mpure, tryCatchM, logM,
            record, liftE, throwM, ht, hgb, hm, insList]
        · rcases hw : env.toGeotiff comp (expanduser (mosaicFilename fmt sensor band d_parsed dir)) with e | uu
          · by_cases hdd : dirname (expanduser (mosaicFilename fmt sensor band d_parsed dir)) = ""
            · refine ⟨⟨.ok none, [.logged .error, .logged .info,
                .mosaicCall (.grid gr)], [], []⟩,
                fun st => ?_, Or.inl rfl, by simp, by simp, by simp⟩
              simp [sensorMosaicStep, bind_eq, pure_eq, mbind, mpure, tryCatchM,
                logM, record, liftE, throwM, mkdirsM, writeM, ht, hgb, hm, hw, hdd,
                insList]
            · refine ⟨⟨.ok none, [.logged .error, .logged .info,
                .mkdirCall (dirname (expanduser (mosaicFilename fmt sensor band d_parsed dir))), .mosaicCall (.grid gr)], [dirname (expanduser (mosaicFilename fmt sensor band d_parsed dir))], []⟩,
                fun st => ?_, Or.inl rfl, by simp, by simp, by simp⟩
              simp [sensorMosaicStep, bind_eq, pure_eq, mbind, mpure, tryCatchM,
                logM, record, liftE, throwM, mkdirsM, writeM, ht, hgb, hm, hw, hdd,
                insList]
          · by_cases hdd : dirname (expanduser (mosaicFilename fmt sensor band d_parsed dir)) = ""
            · refine ⟨⟨.ok (some (mosaicFilename fmt sensor band d_parsed dir)),
                [.writeFile (expanduser (mosaicFilename fmt sensor band d_parsed dir)), .logged .info, .mosaicCall (.grid gr)],
                [], [expanduser (mosaicFilename fmt sensor band d_parsed dir)]⟩,
                fun st => ?_, Or.inr rfl, ?_, by simp, ?_⟩
              · simp [sensorMosaicStep, bind_eq, pure_eq, mbind, mpure, tryCatchM,
                  logM, record, liftE, throwM, mkdirsM, writeM, ht, hgb, hm, hw,
                  hdd, insList]
              · intro p hpe
                simp at hpe
                exact hpe
              · intro p hpe
                simp at hpe
                exact hpe
            · refine ⟨⟨.ok (some (mosaicFilename fmt sensor band d_parsed dir)),
                [.writeFile (expanduser (mosaicFilename fmt sensor band d_parsed dir)), .logged .info, .mkdirCall (dirname (expanduser (mosaicFilename fmt sensor band d_parsed dir))),
                 .mosaicCall (.grid gr)], [dirname (expanduser (mosaicFilename fmt sensor band d_parsed dir))], [expanduser (mosaicFilename fmt sensor band d_parsed dir)]⟩,
                fun st => ?_, Or.inr rfl, ?_, by simp, ?_⟩
              · simp [sensorMosaicStep, bind_eq, pure_eq, mbind, mpure, tryCatchM,
                  logM, record, liftE, throwM, mkdirsM, writeM, ht, hgb, hm, hw,
                  hdd, insList]
              · intro p hpe
                simp at hpe
                exact hpe
              · intro p hpe
                simp at hpe
                exact hpe
  · rcases hm : env.mosaic (img0 :: restImages) (.grid g0) with e | comp
    · refine ⟨⟨.ok none, [.logged .error, .mosaicCall (.grid g0)], [], []⟩,
        fun st => ?_, Or.inl rfl, by simp, by simp, by simp⟩
      simp [sensorMosaicStep, bind_eq, pure_eq, mbind, mpure, tryCatchM, logM,
        record, liftE, throwM, hm, insList]
    · rcases hw : env.toGeotiff comp (expanduser (mosaicFilename fmt sensor band d_parsed dir)) with e | uu
      · by_cases hdd : dirname (expanduser (mosaicFilename fmt sensor band d_parsed dir)) = ""
        · refine ⟨⟨.ok none, [.logged .error, .logged .info,
            .mosaicCall (.grid g0)], [], []⟩,
            fun st => ?_, Or.inl rfl, by simp, by simp, by simp⟩
          simp [sensorMosaicStep, bind_eq, pure_eq, mbind, mpure, tryCatchM,
            logM, record, liftE, throwM, mkdirsM, writeM, hm, hw, hdd,
            insList]
        · refine ⟨⟨.ok none, [.logged .error, .logged .info,
            .mkdirCall (dirname (expanduser (mosaicFilename fmt sensor band d_parsed dir))), .mosaicCall (.grid g0)], [dirname (expanduser (mosaicFilename fmt sensor band d_parsed dir))], []⟩,
            fun st => ?_, Or.inl rfl, by simp, by simp, by simp⟩
          simp [sensorMosaicStep, bind_eq, pure_eq, mbind, mpure, tryCatchM,
            logM, record, liftE, throwM, mkdirsM, writeM, hm, hw, hdd,
            insList]
      · by_cases hdd : dirname (expanduser (mosaicFilename fmt sensor band d_parsed dir)) = ""
        · refine ⟨⟨.ok (some (mosaicFilename fmt sensor band d_parsed dir)),
            [.writeFile (expanduser (mosaicFilename fmt sensor band d_parsed dir)), .logged .info, .mosaicCall (.grid g0)],
            [], [expanduser (mosaicFilename fmt sensor band d_parsed dir)]⟩,
            fun st => ?_, Or.inr rfl, ?_, by simp, ?_⟩
          · simp [sensorMosaicStep, bind_eq, pure_eq, mbind, mpure, tryCatchM,
              logM, record, liftE, throwM, mkdirsM, writeM, hm, hw,
              hdd, insList]
          · intro p hpe
            simp at hpe
            exact hpe
          · intro p hpe
            simp at hpe
            exact hpe
        · refine ⟨⟨.ok (some (mosaicFilename fmt sensor band d_parsed dir)),
            [.writeFile (expanduser (mosaicFilename fmt sensor band d_parsed dir)), .logged .info, .mkdirCall (dirname (expanduser (mosaicFilename fmt sensor band d_parsed dir))),
             .mosaicCall (.grid g0)], [dirname (expanduser (mosaicFilename fmt sensor band d_parsed dir))], [expanduser (mosaicFilename fmt sensor band d_parsed dir)]⟩,
            fun st => ?_, Or.inr rfl, ?_, by simp, ?_⟩
          · simp [sensorMosaicStep, bind_eq, pure_eq, mbind, mpure, tryCatchM,
              logM, record, liftE, throwM, mkdirsM, writeM, hm, hw,
              hdd, insList]
          · intro p hpe
            simp at hpe
            exact hpe
          · intro p hpe
            simp at hpe
            exact hpe

/-- Master summary of `process_sensor_mosaic`: it always succeeds, returns
either `None` or the deterministic mosaic filename, only ever writes that
filename, and never queries the combined product. -/
theorem runsAs_process_sensor_mosaic {D : Type} [DecidableEq D] (env : Env D)
    (fmt : D → String) (sensor : String) (d d_parsed : D) (band : String)
    (tiles : List String) (cal : Cal D) (geometry : Geom) (dir : String) :
    ∃ u : URun (Option String),
      RunsAs (process_sensor_mosaic env fmt sensor d d_parsed band tiles cal
        geometry dir) u ∧
      (u.res = .ok none ∨
       u.res = .ok (some (mosaicFilename fmt sensor band d_parsed dir))) ∧
      (∀ p, Event.writeFile p ∈ u.ev →
        p = expanduser (mosaicFilename fmt sensor band d_parsed dir)) ∧
      (∀ b t, Event.combinedQuery b t ∉ u.ev) ∧
      (∀ p, p ∈ u.fls →
        p = expanduser (mosaicFilename fmt sensor band d_parsed dir)) := by
  obtain ⟨u1, h1, ⟨imgs, hres1⟩, hds1, hfls1, hw1, hc1⟩ :=
    runsAs_collectImages env sensor d d_parsed band cal tiles
  simp only [RunsAs] at h1
  cases imgs with
  | nil =>
    refine ⟨⟨.ok none, .logged .warning :: u1.ev, [], []⟩,
      fun st => ?_, Or.inl rfl, ?_, ?_, by simp⟩
    · simp [process_sensor_mosaic, bind_eq, pure_eq, mbind, mpure, logM,
        record, h1, hres1, hds1, hfls1, insList]
    · intro p hp
      simp only [List.mem_cons] at hp
      rcases hp with hp | hp
      · exact absurd hp (by simp)
      · exact absurd hp (hw1 p)
    · intro b t
      simp [hc1]
  | cons img0 restImgs =>
    obtain ⟨u2, h2, hres2, hw2, hc2, hfls2⟩ :=
      runsAs_sensorMosaicStep env fmt sensor d_parsed band geometry img0
        restImgs dir
    simp only [RunsAs] at h2
    refine ⟨⟨u2.res, u2.ev ++ u1.ev, u2.ds, u2.fls⟩,
      fun st => ?_, hres2, ?_, ?_, hfls2⟩
    · simp [process_sensor_mosaic, bind_eq, pure_eq, mbind, mpure, h1, hres1,
        hds1, hfls1, h2, insList]
    · intro p hp
      simp only [List.mem_append] at hp
      rcases hp with hp | hp
      · exact hw2 p hp
      · exact absurd hp (hw1 p)
    · intro b t
      simp [List.mem_append, hc1, hc2]

/-- C4: when the per-tile collection loop of `process_sensor_mosaic` produces
zero images, the function logs a warning, returns `None`, and the set of
existing files is unchanged: an empty mosaic is never persisted. -/
theorem process_sensor_mosaic_empty_no_write {D : Type} [DecidableEq D]
    (env : Env D) (fmt : D → String) (sensor : String) (d d_parsed : D)
    (band : String) (tiles : List String) (cal : Cal D) (geometry : Geom)
    (dir : String) (st st1 : St)
    (hc : collectImages env sensor d d_parsed band cal tiles st =
      (.ok [], st1)) :
    process_sensor_mosaic env fmt sensor d d_parsed band tiles cal geometry
      dir st = (.ok none, { st1 with events := .logged .warning :: st1.events })
    ∧ (process_sensor_mosaic env fmt sensor d d_parsed band tiles cal geometry
      dir st).2.files = st.files := by
  have hmain : process_sensor_mosaic env fmt sensor d d_parsed band tiles cal
      geometry dir st =
      (.ok none, { st1 with events := .logged .warning :: st1.events }) := by
    simp only [process_sensor_mosaic, bind_eq, mbind, hc]
    simp [logM, record, pure_eq, mpure]
  refine ⟨hmain, ?_⟩
  rw [hmain]
  obtain ⟨u1, h1, _, _, hfls1, _, _⟩ :=
    runsAs_collectImages env sensor d d_parsed band cal tiles
  have heq := hc.symm.trans (h1 st)
  have hf : st1.files = insList u1.fls st.files := by
    have := congrArg (fun x => x.2.files) heq
    simpa using this
  simp [hf, hfls1, insList]

/-- C4 witness: the empty-mosaic law at a concrete input (no tile has any
availability). -/
theorem process_sensor_mosaic_empty_no_write_witness :
    process_sensor_mosaic trivEnv Nat.repr "S30" 20220803 20220803 "red"
      ["10SEG"] [] (.grid ⟨0⟩) "out" st0 =
      (.ok none, { st0 with events := .logged .warning :: st0.events })
    ∧ (process_sensor_mosaic trivEnv Nat.repr "S30" 20220803 20220803 "red"
      ["10SEG"] [] (.grid ⟨0⟩) "out" st0).2.files = st0.files :=
  process_sensor_mosaic_empty_no_write trivEnv Nat.repr "S30" 20220803 20220803
    "red" ["10SEG"] [] (.grid ⟨0⟩) "out" st0 st0 (by decide)

/-- C7: with at least one collected image, a `BBox` target geometry is
reprojected into the first collected image's coordinate reference system and
gridded at that image's native cell size, and the resulting grid is the one
passed to the compositing primitive; a ready raster grid is passed unchanged;
and the persisted mosaic filename is `{sensor}_{band}_{YYYYMMDD}.tif` with no
tile component. -/
theorem mosaic_grid_selection {D : Type} [DecidableEq D] (env : Env D)
    (fmt : D → String) (sensor : String) (d d_parsed : D) (band : String)
    (tiles : List String) (cal : Cal D) (dir : String) (st st1 : St)
    (img0 : Image) (restImages : List Image)
    (hc : collectImages env sensor d d_parsed band cal tiles st =
      (.ok (img0 :: restImages), st1)) :
    (∀ b b' gr comp, env.toCrs b img0.geometry.crs = .ok b' →
      env.gridFromBbox b' img0.geometry.cell_size img0.geometry.crs = .ok gr →
      env.mosaic (img0 :: restImages) (.grid gr) = .ok comp →
      env.toGeotiff comp
        (expanduser (mosaicFilename fmt sensor band d_parsed dir)) = .ok () →
      (process_sensor_mosaic env fmt sensor d d_parsed band tiles cal (.bbox b)
        dir st).1 = .ok (some (mosaicFilename fmt sensor band d_parsed dir)) ∧
      Event.mosaicCall (.grid gr) ∈
        (process_sensor_mosaic env fmt sensor d d_parsed band tiles cal
          (.bbox b) dir st).2.events)
    ∧ (∀ g0 comp, env.mosaic (img0 :: restImages) (.grid g0) = .ok comp →
      env.toGeotiff comp
        (expanduser (mosaicFilename fmt sensor band d_parsed dir)) = .ok () →
      (process_sensor_mosaic env fmt sensor d d_parsed band tiles cal (.grid g0)
        dir st).1 = .ok (some (mosaicFilename fmt sensor band d_parsed dir)) ∧
      Event.mosaicCall (.grid g0) ∈
        (process_sensor_mosaic env fmt sensor d d_parsed band tiles cal
          (.grid g0) dir st).2.events) := by
  constructor
  · intro b b' gr comp ht hgb hm hw
    have hmain : process_sensor_mosaic env fmt sensor d d_parsed band tiles cal
        (.bbox b) dir st =
        sensorMosaicStep env fmt sensor d_parsed band (.bbox b) img0 restImages
          dir st1 := by
      simp only [process_sensor_mosaic, bind_eq, mbind, hc]
    rw [hmain]
    by_cases hdd :
        dirname (expanduser (mosaicFilename fmt sensor band d_parsed dir)) = "" <;>
      simp [sensorMosaicStep, bind_eq, pure_eq, mbind, mpure, tryCatchM, logM,
        record, liftE, throwM, mkdirsM, writeM, ht, hgb, hm, hw, hdd, insList]
  · intro g0 comp hm hw
    have hmain : process_sensor_mosaic env fmt sensor d d_parsed band tiles cal
        (.grid g0) dir st =
        sensorMosaicStep env fmt sensor d_parsed band (.grid g0) img0 restImages
          dir st1 := by
      simp only [process_sensor_mosaic, bind_eq, mbind, hc]
    rw [hmain]
    by_cases hdd :
        dirname (expanduser (mosaicFilename fmt sensor band d_parsed dir)) = "" <;>
      simp [sensorMosaicStep, bind_eq, pure_eq, mbind, mpure, tryCatchM, logM,
        record, liftE, throwM, mkdirsM, writeM, hm, hw, hdd, insList]

/-- A concrete environment for the mosaic scenario: one tile with S30
availability, a granule whose red band extracts to an image in crs 32610 with
cell size 30, and arithmetic `toCrs`/`gridFromBbox` so the derived grid is
observable. -/
def mosaicEnv : Env Nat := { trivEnv with
  sentinel := fun _ _ => .ok 3,
  granuleProduct := fun g _ => if g = 3 then .ok ⟨9, ⟨32610, 30⟩⟩ else .error .keyError,
  toCrs := fun b crs => .ok ⟨b.ident + crs⟩,
  gridFromBbox := fun b cs crs => .ok ⟨b.ident + cs + crs⟩,
  mosaic := fun _ _ => .ok ⟨100, ⟨32610, 30⟩⟩ }

/-- C7 witness: the bbox case of the grid-selection law at a concrete input
(the derived grid reflects the first image's crs 32610 and cell size 30). -/
theorem mosaic_grid_selection_witness :
    (process_sensor_mosaic mosaicEnv Nat.repr "S30" 20220803 20220803 "red"
      ["10SEG"] [("10SEG", ⟨[20220803], []⟩)] (.bbox ⟨1⟩) "out" st0).1 =
      .ok (some (mosaicFilename Nat.repr "S30" "red" 20220803 "out")) ∧
    Event.mosaicCall (.grid ⟨65251⟩) ∈
      (process_sensor_mosaic mosaicEnv Nat.repr "S30" 20220803 20220803 "red"
        ["10SEG"] [("10SEG", ⟨[20220803], []⟩)] (.bbox ⟨1⟩) "out" st0).2.events :=
  (mosaic_grid_selection mosaicEnv Nat.repr "S30" 20220803 20220803 "red"
    ["10SEG"] [("10SEG", ⟨[20220803], []⟩)] "out" st0
    ⟨[.bandExtract 3 "red", .granuleQuery "S30" "10SEG", .logged .info], [], []⟩
    ⟨9, ⟨32610, 30⟩⟩ [] (by decide)).1 ⟨1⟩ ⟨32611⟩ ⟨65251⟩ ⟨100, ⟨32610, 30⟩⟩
    rfl rfl rfl rfl

/-! Existence of a uniform-run summary is preserved by every construct of the
embedding; these lemmas let the orchestrator's summary be built
compositionally. -/

theorem runsAs_exists_bind {α β : Type} {x : M α} {f : α → M β}
    (hx : ∃ u, RunsAs x u) (hf : ∀ a, ∃ u, RunsAs (f a) u) :
    ∃ u, RunsAs (mbind x f) u := by
  obtain ⟨u1, h1⟩ := hx
  rcases hres : u1.res with e | a
  · refine ⟨⟨.error e, u1.ev, u1.ds, u1.fls⟩, fun st => ?_⟩
    have hx1 := h1 st
    rw [hres] at hx1
    simp [mbind, hx1]
  · obtain ⟨u2, h2⟩ := hf a
    refine ⟨⟨u2.res, u2.ev ++ u1.ev, u1.ds ++ u2.ds, u1.fls ++ u2.fls⟩,
      fun st => ?_⟩
    have hx1 := h1 st
    rw [hres] at hx1
    simp [mbind, hx1, h2 _, insList_append, List.append_assoc]

theorem runsAs_exists_seq {α β : Type} {x : M α} {f : α → M β}
    (hx : ∃ u, RunsAs x u) (hf : ∀ a, ∃ u, RunsAs (f a) u) :
    ∃ u, RunsAs (x >>= f) u := runsAs_exists_bind hx hf

theorem runsAs_exists_tryCatch {α : Type} {x : M α} {h : PyErr → M α}
    (hx : ∃ u, RunsAs x u) (hh : ∀ e, ∃ u, RunsAs (h e) u) :
    ∃ u, RunsAs (tryCatchM x h) u := by
  obtain ⟨u1, h1⟩ := hx
  rcases hres : u1.res with e | a
  · obtain ⟨u2, h2⟩ := hh e
    refine ⟨⟨u2.res, u2.ev ++ u1.ev, u1.ds ++ u2.ds, u1.fls ++ u2.fls⟩,
      fun st => ?_⟩
    have hx1 := h1 st
    rw [hres] at hx1
    simp [tryCatchM, hx1, h2 _, insList_append, List.append_assoc]
  · refine ⟨⟨.ok a, u1.ev, u1.ds, u1.fls⟩, fun st => ?_⟩
    have hx1 := h1 st
    rw [hres] at hx1
    simp [tryCatchM, hx1]

theorem runsAs_exists_ite {α : Type} {c : Prop} [Decidable c] {t e : M α}
    (ht : ∃ u, RunsAs t u) (he : ∃ u, RunsAs e u) :
    ∃ u, RunsAs (if c then t else e) u := by
  by_cases hc : c
  · simpa [hc] using ht
  · simpa [hc] using he

theorem runsAs_exists_pure {α : Type} (a : α) :
    ∃ u, RunsAs (Pure.pure a : M α) u := ⟨_, runsAs_pure a⟩

theorem runsAs_exists_throwM {α : Type} (e : PyErr) :
    ∃ u, RunsAs (throwM e : M α) u := ⟨_, runsAs_throwM e⟩

theorem runsAs_exists_record (e : Event) : ∃ u, RunsAs (record e) u :=
  ⟨_, runsAs_record e⟩

theorem runsAs_exists_logM (lvl : LogLevel) : ∃ u, RunsAs (logM lvl) u :=
  ⟨_, runsAs_logM lvl⟩

theorem runsAs_exists_liftE {α : Type} (r : Except PyErr α) :
    ∃ u, RunsAs (liftE r) u := by
  obtain ⟨u, hu, -, -⟩ := runsAs_liftE r
  exact ⟨u, hu⟩

theorem runsAs_exists_mkdirs (dir : String) :
    ∃ u, RunsAs (mkdirsM dir true) u := ⟨_, runsAs_mkdirs dir⟩

theorem runsAs_exists_writeM {D : Type} (env : Env D) (img : Image)
    (path : String) : ∃ u, RunsAs (writeM env img path) u := by
  rcases hw : env.toGeotiff img path with e | uu
  · exact ⟨_, runsAs_writeM_err hw⟩
  · exact ⟨_, runsAs_writeM_ok hw⟩

theorem runsAs_exists_joinOptM (a? : Option String) (b : String) :
    ∃ u, RunsAs (joinOptM a? b) u := by
  cases a? with
  | none => exact ⟨_, runsAs_throwM _⟩
  | some a => exact ⟨_, runsAs_mpure _⟩

theorem runsAs_exists_logDates {D : Type} (l : List D) :
    ∃ u, RunsAs (logDates l) u := by
  induction l with
  | nil => exact ⟨_, runsAs_pure ()⟩
  | cons x xs ih =>
    simp only [logDates, List.foldr_cons]
    exact runsAs_exists_seq (runsAs_exists_logM .info) fun _ => ih

theorem runsAs_exists_process_sensor_band {D : Type} (env : Env D)
    (fmt : D → String) (sensor : String) (d d_parsed : D)
    (band tile dir : String) :
    ∃ u, RunsAs (process_sensor_band env fmt sensor d d_parsed band tile dir) u := by
  obtain ⟨u, h, -⟩ :=
    runsAs_process_sensor_band env fmt sensor d d_parsed band tile dir
  exact ⟨u, h⟩

theorem runsAs_exists_process_sensor_mosaic {D : Type} [DecidableEq D]
    (env : Env D) (fmt : D → String) (sensor : String) (d d_parsed : D)
    (band : String) (tiles : List String) (cal : Cal D) (geometry : Geom)
    (dir : String) :
    ∃ u, RunsAs (process_sensor_mosaic env fmt sensor d d_parsed band tiles cal
      geometry dir) u := by
  obtain ⟨u, h, -⟩ :=
    runsAs_process_sensor_mosaic env fmt sensor d d_parsed band tiles cal
      geometry dir
  exact ⟨u, h⟩

theorem runsAs_exists_hlsTileStep {D : Type} (env : Env D) (fmt : D → String)
    (d_parsed : D) (band tile : String) (geometry : Option Geom)
    (band_output_dir : String) :
    ∃ u, RunsAs (hlsTileStep env fmt d_parsed band tile geometry
      band_output_dir) u := by
  rcases geometry with _ | g <;>
    simp only [hlsTileStep] <;>
    refine runsAs_exists_tryCatch
      (runsAs_exists_seq (runsAs_exists_record _) fun _ =>
        runsAs_exists_seq (runsAs_exists_liftE _) fun image => ?_)
      (fun e => runsAs_exists_seq (runsAs_exists_logM _) fun _ =>
        runsAs_exists_pure _)
  · refine runsAs_exists_ite ?_ ?_
    · exact runsAs_exists_seq (runsAs_exists_mkdirs _) fun _ =>
        runsAs_exists_seq (runsAs_exists_logM _) fun _ =>
        runsAs_exists_seq (runsAs_exists_writeM _ _ _) fun _ =>
        runsAs_exists_pure _
    · exact runsAs_exists_seq (runsAs_exists_pure _) fun _ =>
        runsAs_exists_seq (runsAs_exists_logM _) fun _ =>
        runsAs_exists_seq (runsAs_exists_writeM _ _ _) fun _ =>
        runsAs_exists_pure _
  · exact runsAs_exists_pure _

theorem runsAs_exists_hlsTileLoop {D : Type} [DecidableEq D] (env : Env D)
    (fmt : D → String) (d d_parsed : D) (band : String) (cal : Cal D)
    (geometry : Option Geom) (band_output_dir : String) (tiles : List String) :
    ∃ u, RunsAs (hlsTileLoop env fmt d d_parsed band cal geometry
      band_output_dir tiles) u := by
  induction tiles with
  | nil => exact ⟨_, runsAs_pure _⟩
  | cons tile rest ih =>
    simp only [hlsTileLoop]
    refine runsAs_exists_ite ?_ ih
    refine runsAs_exists_seq (runsAs_exists_logM _) fun _ => ?_
    refine runsAs_exists_seq
      (runsAs_exists_hlsTileStep env fmt d_parsed band tile geometry
        band_output_dir) fun step => ?_
    refine runsAs_exists_seq ih fun pair => ?_
    rcases step with _ | s
    · exact runsAs_exists_pure _
    · rcases s with img | f <;> exact runsAs_exists_pure _

theorem runsAs_exists_hlsMosaicStep {D : Type} (env : Env D)
    (fmt : D → String) (d_parsed : D) (band : String) (geometry : Geom)
    (img0 : Image) (restImages : List Image) (band_output_dir : String) :
    ∃ u, RunsAs (hlsMosaicStep env fmt d_parsed band geometry img0 restImages
      band_output_dir) u := by
  have htail : ∀ (composite : Image),
      (∃ u, RunsAs (if dirname (expanduser (pjoin band_output_dir
          ("HLS_" ++ band ++ "_" ++ fmt d_parsed ++ ".tif"))) ≠ "" then do
          mkdirsM (dirname (expanduser (pjoin band_output_dir
            ("HLS_" ++ band ++ "_" ++ fmt d_parsed ++ ".tif")))) true
          logM LogLevel.info
          writeM env composite (expanduser (pjoin band_output_dir
            ("HLS_" ++ band ++ "_" ++ fmt d_parsed ++ ".tif")))
          pure (some (pjoin band_output_dir
            ("HLS_" ++ band ++ "_" ++ fmt d_parsed ++ ".tif")))
        else do
          pure ()
          logM LogLevel.info
          writeM env composite (expanduser (pjoin band_output_dir
            ("HLS_" ++ band ++ "_" ++ fmt d_parsed ++ ".tif")))
          pure (some (pjoin band_output_dir
            ("HLS_" ++ band ++ "_" ++ fmt d_parsed ++ ".tif")))) u) := by
    intro composite
    refine runsAs_exists_ite ?_ ?_
    · exact runsAs_exists_seq (runsAs_exists_mkdirs _) fun _ =>
        runsAs_exists_seq (runsAs_exists_logM _) fun _ =>
        runsAs_exists_seq (runsAs_exists_writeM _ _ _) fun _ =>
        runsAs_exists_pure _
    · exact runsAs_exists_seq (runsAs_exists_pure _) fun _ =>
        runsAs_exists_seq (runsAs_exists_logM _) fun _ =>
        runsAs_exists_seq (runsAs_exists_writeM _ _ _) fun _ =>
        runsAs_exists_pure _
  rcases geometry with b | g
  · simp only [hlsMosaicStep]
    refine runsAs_exists_tryCatch ?_ fun e =>
      runsAs_exists_seq (runsAs_exists_logM _) fun _ => runsAs_exists_pure _
    refine runsAs_exists_seq (runsAs_exists_liftE _) fun tb => ?_
    refine runsAs_exists_seq (runsAs_exists_liftE _) fun grid => ?_
    refine runsAs_exists_seq (runsAs_exists_pure _) fun y => ?_
    refine runsAs_exists_seq (runsAs_exists_record _) fun _ => ?_
    refine runsAs_exists_seq (runsAs_exists_liftE _) fun composite => ?_
    exact htail composite
  · simp only [hlsMosaicStep]
    refine runsAs_exists_tryCatch ?_ fun e =>
      runsAs_exists_seq (runsAs_exists_logM _) fun _ => runsAs_exists_pure _
    refine runsAs_exists_seq (runsAs_exists_pure _) fun y => ?_
    refine runsAs_exists_seq (runsAs_exists_record _) fun _ => ?_
    refine runsAs_exists_seq (runsAs_exists_liftE _) fun composite => ?_
    exact htail composite

theorem runsAs_exists_sensorTileLoop {D : Type} [DecidableEq D] (env : Env D)
    (fmt : D → String) (sensor : String) (d d_parsed : D) (band : String)
    (cal : Cal D) (band_output_dir : String) (tiles : List String) :
    ∃ u, RunsAs (sensorTileLoop env fmt sensor d d_parsed band cal
      band_output_dir tiles) u := by
  induction tiles with
  | nil => exact ⟨_, runsAs_pure _⟩
  | cons tile rest ih =>
    simp only [sensorTileLoop]
    refine runsAs_exists_ite ?_ ih
    refine runsAs_exists_seq
      (runsAs_exists_process_sensor_band env fmt sensor d d_parsed band tile
        band_output_dir) fun f? => ?_
    exact runsAs_exists_seq ih fun rest' => runsAs_exists_pure _

theorem runsAs_exists_bothSensorStep {D : Type} [DecidableEq D] (env : Env D)
    (fmt : D → String) (sensor : String) (d d_parsed : D) (band : String)
    (cal : Cal D) (tile : String) (sensor_output_dir : String) :
    ∃ u, RunsAs (bothSensorStep env fmt sensor d d_parsed band cal tile
      sensor_output_dir) u := by
  simp only [bothSensorStep]
  exact runsAs_exists_ite
    (runsAs_exists_process_sensor_band env fmt sensor d d_parsed band tile
      sensor_output_dir)
    (runsAs_exists_pure _)

theorem runsAs_exists_bothTileLoop {D : Type} [DecidableEq D] (env : Env D)
    (fmt : D → String) (d d_parsed : D) (band : String) (cal : Cal D)
    (s30_output_dir l30_output_dir : String) (tiles : List String) :
    ∃ u, RunsAs (bothTileLoop env fmt d d_parsed band cal s30_output_dir
      l30_output_dir tiles) u := by
  induction tiles with
  | nil => exact ⟨_, runsAs_pure _⟩
  | cons tile rest ih =>
    simp only [bothTileLoop]
    refine runsAs_exists_seq
      (runsAs_exists_bothSensorStep env fmt "S30" d d_parsed band cal tile
        s30_output_dir) fun fS => ?_
    refine runsAs_exists_seq
      (runsAs_exists_bothSensorStep env fmt "L30" d d_parsed band cal tile
        l30_output_dir) fun fL => ?_
    exact runsAs_exists_seq ih fun rest' => runsAs_exists_pure _

/-- A summary that contains no file-write event and no combined-product
query. -/
def NoWC {α : Type} (u : URun α) : Prop :=
  (∀ p, Event.writeFile p ∉ u.ev) ∧ (∀ b t, Event.combinedQuery b t ∉ u.ev)

theorem runsAsNW_seq {α β : Type} {x : M α} {f : α → M β}
    (hx : ∃ u, RunsAs x u ∧ NoWC u)
    (hf : ∀ a, ∃ u, RunsAs (f a) u ∧ NoWC u) :
    ∃ u, RunsAs (x >>= f) u ∧ NoWC u := by
  obtain ⟨u1, h1, hn1⟩ := hx
  rcases hres : u1.res with e | a
  · refine ⟨⟨.error e, u1.ev, u1.ds, u1.fls⟩, fun st => ?_, hn1⟩
    have hx1 := h1 st
    rw [hres] at hx1
    simp [bind_eq, mbind, hx1]
  · obtain ⟨u2, h2, hn2⟩ := hf a
    refine ⟨⟨u2.res, u2.ev ++ u1.ev, u1.ds ++ u2.ds, u1.fls ++ u2.fls⟩,
      fun st => ?_, ?_, ?_⟩
    · have hx1 := h1 st
      rw [hres] at hx1
      simp [bind_eq, mbind, hx1, h2 _, insList_append, List.append_assoc]
    · intro p
      simp [List.mem_append, hn1.1 p, hn2.1 p]
    · intro b t
      simp [List.mem_append, hn1.2 b t, hn2.2 b t]

theorem runsAsNW_ite {α : Type} {c : Prop} [Decidable c] {t e : M α}
    (ht : ∃ u, RunsAs t u ∧ NoWC u) (he : ∃ u, RunsAs e u ∧ NoWC u) :
    ∃ u, RunsAs (if c then t else e) u ∧ NoWC u := by
  by_cases hc : c
  · simpa [hc] using ht
  · simpa [hc] using he

theorem runsAsNW_pure {α : Type} (a : α) :
    ∃ u, RunsAs (Pure.pure a : M α) u ∧ NoWC u :=
  ⟨_, runsAs_pure a, by simp [NoWC], by simp [NoWC]⟩

theorem runsAsNW_throwM {α : Type} (e : PyErr) :
    ∃ u, RunsAs (throwM e : M α) u ∧ NoWC u :=
  ⟨_, runsAs_throwM e, by simp [NoWC], by simp [NoWC]⟩

theorem runsAsNW_logM (lvl : LogLevel) :
    ∃ u, RunsAs (logM lvl) u ∧ NoWC u :=
  ⟨_, runsAs_logM lvl, by simp [NoWC], by simp [NoWC]⟩

theorem runsAsNW_listingQuery (tile : String) :
    ∃ u, RunsAs (record (.listingQuery tile)) u ∧ NoWC u :=
  ⟨_, runsAs_record _, by simp [NoWC], by simp [NoWC]⟩

theorem runsAsNW_tileLookup :
    ∃ u, RunsAs (record .tileLookup) u ∧ NoWC u :=
  ⟨_, runsAs_record _, by simp [NoWC], by simp [NoWC]⟩

theorem runsAsNW_liftE {α : Type} (r : Except PyErr α) :
    ∃ u, RunsAs (liftE r) u ∧ NoWC u := by
  obtain ⟨u, hu, -, hev⟩ := runsAs_liftE r
  exact ⟨u, hu, by simp [NoWC, hev]⟩

theorem runsAsNW_logDates {D : Type} (l : List D) :
    ∃ u, RunsAs (logDates l) u ∧ NoWC u := by
  induction l with
  | nil => exact runsAsNW_pure ()
  | cons x xs ih =>
    simp only [logDates, List.foldr_cons]
    exact runsAsNW_seq (runsAsNW_logM .info) fun _ => ih

theorem runsAsNW_indexLoop {D : Type} [LinearOrder D] (env : Env D)
    (sUTC eUTC : Option D) (tiles : List String) :
    ∃ u, RunsAs (indexLoop env sUTC eUTC tiles) u ∧ NoWC u := by
  induction tiles with
  | nil => exact runsAsNW_pure _
  | cons tile rest ih =>
    simp only [indexLoop]
    refine runsAsNW_seq (runsAsNW_logM _) fun _ => ?_
    refine runsAsNW_seq (runsAsNW_listingQuery _) fun _ => ?_
    refine runsAsNW_seq (runsAsNW_liftE _) fun listing => ?_
    refine runsAsNW_ite ?_ ?_
    · refine runsAsNW_seq (runsAsNW_logM _) fun _ => ?_
      exact runsAsNW_seq ih fun pr => runsAsNW_pure _
    · refine runsAsNW_ite ?_ ?_
      · refine runsAsNW_seq (runsAsNW_logM _) fun _ => ?_
        refine runsAsNW_seq (runsAsNW_logDates _) fun _ => ?_
        refine runsAsNW_ite ?_ ?_
        · refine runsAsNW_seq (runsAsNW_logM _) fun _ => ?_
          refine runsAsNW_seq (runsAsNW_logDates _) fun _ => ?_
          exact runsAsNW_seq ih fun pr => runsAsNW_pure _
        · refine runsAsNW_seq (runsAsNW_pure _) fun _ => ?_
          exact runsAsNW_seq ih fun pr => runsAsNW_pure _
      · refine runsAsNW_seq (runsAsNW_pure _) fun _ => ?_
        refine runsAsNW_ite ?_ ?_
        · refine runsAsNW_seq (runsAsNW_logM _) fun _ => ?_
          refine runsAsNW_seq (runsAsNW_logDates _) fun _ => ?_
          exact runsAsNW_seq ih fun pr => runsAsNW_pure _
        · refine runsAsNW_seq (runsAsNW_pure _) fun _ => ?_
          exact runsAsNW_seq ih fun pr => runsAsNW_pure _

theorem runsAsNW_indexTiles {D : Type} [LinearOrder D] (env : Env D)
    (sUTC eUTC : Option D) (tiles : List String) :
    ∃ u, RunsAs (indexTiles env sUTC eUTC tiles) u ∧ NoWC u := by
  simp only [indexTiles]
  refine runsAsNW_seq (runsAsNW_indexLoop env sUTC eUTC tiles) fun pr => ?_
  exact runsAsNW_seq (runsAsNW_logM _) fun _ => runsAsNW_pure _

theorem runsAsNW_resolveTiles {D : Type} (env : Env D) (tiles : OptStrs)
    (geometry : Option Geom) :
    ∃ u, RunsAs (resolveTiles env tiles geometry) u ∧ NoWC u := by
  rcases tiles with _ | s | l
  · rcases geometry with _ | g
    · exact runsAsNW_pure _
    · rcases g with b | gr <;>
        exact runsAsNW_seq runsAsNW_tileLookup fun _ => runsAsNW_pure _
  · rcases geometry with _ | g
    · exact runsAsNW_pure _
    · rcases g with b | gr <;> exact runsAsNW_pure _
  · rcases geometry with _ | g
    · exact runsAsNW_pure _
    · rcases g with b | gr <;> exact runsAsNW_pure _

theorem runsAs_exists_dispatchBand {D : Type} [DecidableEq D] (env : Env D)
    (fmt : D → String) (source : String) (d d_parsed : D) (band : String)
    (tiles : List String) (cal : Cal D) (geometry : Option Geom)
    (output_directory : Option String) :
    ∃ u, RunsAs (dispatchBand env fmt source d d_parsed band tiles cal geometry
      output_directory) u := by
  simp only [dispatchBand]
  refine runsAs_exists_ite ?_ (runsAs_exists_ite ?_ (runsAs_exists_ite ?_
    (runsAs_exists_ite ?_ (runsAs_exists_pure _))))
  · refine runsAs_exists_seq (runsAs_exists_joinOptM _ _) fun bdir => ?_
    refine runsAs_exists_seq
      (runsAs_exists_hlsTileLoop env fmt d d_parsed band cal geometry bdir
        tiles) fun pair => ?_
    rcases pair with ⟨imgs, files⟩
    rcases geometry with _ | g
    · exact runsAs_exists_pure _
    · rcases imgs with _ | ⟨img0, restImgs⟩
      · exact runsAs_exists_pure _
      · exact runsAs_exists_seq
          (runsAs_exists_hlsMosaicStep env fmt d_parsed band g img0 restImgs
            bdir) fun mf => runsAs_exists_pure _
  · refine runsAs_exists_seq (runsAs_exists_joinOptM _ _) fun bdir => ?_
    rcases geometry with _ | g
    · exact runsAs_exists_sensorTileLoop env fmt "S30" d d_parsed band cal bdir
        tiles
    · exact runsAs_exists_seq
        (runsAs_exists_process_sensor_mosaic env fmt "S30" d d_parsed band
          tiles cal g bdir) fun f => runsAs_exists_pure _
  · refine runsAs_exists_seq (runsAs_exists_joinOptM _ _) fun bdir => ?_
    rcases geometry with _ | g
    · exact runsAs_exists_sensorTileLoop env fmt "L30" d d_parsed band cal bdir
        tiles
    · exact runsAs_exists_seq
        (runsAs_exists_process_sensor_mosaic env fmt "L30" d d_parsed band
          tiles cal g bdir) fun f => runsAs_exists_pure _
  · refine runsAs_exists_seq (runsAs_exists_joinOptM _ _) fun s30base => ?_
    refine runsAs_exists_seq (runsAs_exists_joinOptM _ _) fun l30base => ?_
    rcases geometry with _ | g
    · exact runsAs_exists_bothTileLoop env fmt d d_parsed band cal _ _ tiles
    · refine runsAs_exists_seq
        (runsAs_exists_process_sensor_mosaic env fmt "S30" d d_parsed band
          tiles cal g _) fun fS => ?_
      exact runsAs_exists_seq
        (runsAs_exists_process_sensor_mosaic env fmt "L30" d d_parsed band
          tiles cal g _) fun fL => runsAs_exists_pure _

theorem runsAs_exists_bandLoop {D : Type} [DecidableEq D] (env : Env D)
    (fmt : D → String) (source : String) (d d_parsed : D)
    (tiles : List String) (cal : Cal D) (geometry : Option Geom)
    (output_directory : Option String) (bands : List String) :
    ∃ u, RunsAs (bandLoop env fmt source d d_parsed tiles cal geometry
      output_directory bands) u := by
  induction bands with
  | nil => exact ⟨_, runsAs_pure _⟩
  | cons band rest ih =>
    simp only [bandLoop]
    refine runsAs_exists_seq
      (runsAs_exists_dispatchBand env fmt source d d_parsed band tiles cal
        geometry output_directory) fun files => ?_
    exact runsAs_exists_seq ih fun rest' => runsAs_exists_pure _

theorem runsAs_exists_dateLoop {D : Type} [DecidableEq D] (env : Env D)
    (fmt : D → String) (source : String) (tiles : List String) (cal : Cal D)
    (geometry : Option Geom) (output_directory : Option String)
    (bands : List String) (dates : List D) :
    ∃ u, RunsAs (dateLoop env fmt source tiles cal geometry output_directory
      bands dates) u := by
  induction dates with
  | nil => exact ⟨_, runsAs_pure _⟩
  | cons dd rest ih =>
    simp only [dateLoop]
    refine runsAs_exists_seq
      (runsAs_exists_bandLoop env fmt source dd dd tiles cal geometry
        output_directory bands) fun files => ?_
    exact runsAs_exists_seq ih fun rest' => runsAs_exists_pure _

/-- Master summary of the orchestrator: every run of
`generate_HLS_timeseries`, over any environment and arguments, is uniform —
its result depends only on the collaborator responses, and its effect on the
filesystem is a fixed set-insertion of directories and files. -/
theorem runsAs_exists_generate {D : Type} [LinearOrder D] (env : Env D)
    (fmt : D → String) (bands tiles : OptStrs) (geometry : Option Geom)
    (sUTC eUTC : Option D) (dl out : Option String) (source : String) :
    ∃ u, RunsAs (generate_HLS_timeseries env fmt bands tiles geometry sUTC eUTC
      dl out source) u := by
  rw [generate_HLS_timeseries.eq_def]
  refine runsAs_exists_ite (runsAs_exists_throwM _) ?_
  refine runsAs_exists_ite (runsAs_exists_throwM _) ?_
  obtain ⟨uR, hR, -⟩ := runsAsNW_resolveTiles env tiles geometry
  refine runsAs_exists_seq ⟨uR, hR⟩ fun tiles' => ?_
  refine runsAs_exists_seq (runsAs_exists_logM _) fun _ => ?_
  refine runsAs_exists_seq (runsAs_exists_logM _) fun _ => ?_
  refine runsAs_exists_seq (runsAs_exists_logM _) fun _ => ?_
  refine runsAs_exists_seq (runsAs_exists_logM _) fun _ => ?_
  refine runsAs_exists_seq (runsAs_exists_logM _) fun _ => ?_
  refine runsAs_exists_seq (runsAs_exists_logM _) fun _ => ?_
  refine runsAs_exists_seq (runsAs_exists_logM _) fun _ => ?_
  obtain ⟨uI, hI, -⟩ := runsAsNW_indexTiles env sUTC eUTC tiles'
  refine runsAs_exists_seq ⟨uI, hI⟩ fun pr => ?_
  exact runsAs_exists_dateLoop env fmt source tiles' pr.1 geometry
    (resolveOut out dl) (normalize_bands bands) pr.2

/-- C9: running `generate_HLS_timeseries` twice in sequence with identical
parameters and collaborator responses returns the identical result (in
particular, an identical list of output paths), and the second run leaves the
directories and files of the first run exactly in place — directory creation
and file writes are idempotent overwrites, so the rerun cannot fail on
already-existing directories or outputs. -/
theorem generate_idempotent {D : Type} [LinearOrder D] (env : Env D)
    (fmt : D → String) (bands tiles : OptStrs) (geometry : Option Geom)
    (sUTC eUTC : Option D) (dl out : Option String) (source : String)
    (st : St) :
    (generate_HLS_timeseries env fmt bands tiles geometry sUTC eUTC dl out
      source
      (generate_HLS_timeseries env fmt bands tiles geometry sUTC eUTC dl out
        source st).2).1 =
    (generate_HLS_timeseries env fmt bands tiles geometry sUTC eUTC dl out
      source st).1 ∧
    (generate_HLS_timeseries env fmt bands tiles geometry sUTC eUTC dl out
      source
      (generate_HLS_timeseries env fmt bands tiles geometry sUTC eUTC dl out
        source st).2).2.dirs =
    (generate_HLS_timeseries env fmt bands tiles geometry sUTC eUTC dl out
      source st).2.dirs ∧
    (generate_HLS_timeseries env fmt bands tiles geometry sUTC eUTC dl out
      source
      (generate_HLS_timeseries env fmt bands tiles geometry sUTC eUTC dl out
        source st).2).2.files =
    (generate_HLS_timeseries env fmt bands tiles geometry sUTC eUTC dl out
      source st).2.files := by
  obtain ⟨u, h⟩ :=
    runsAs_exists_generate env fmt bands tiles geometry sUTC eUTC dl out source
  rw [h st, h _]
  simp [insList_idem]

/-- Modelled from the spec: the catalog collaborator's
`listing(tile, start_date, end_date) -> rows` contract — over fixed catalog
contents, a listing query returns exactly the catalog rows for that tile whose
dates lie inside the closed query interval (an absent bound is no
constraint). -/
def catalogListing (cat : String → List (Row Nat)) (tile : String)
    (s e : Option Nat) : List (Row Nat) :=
  (cat tile).filter fun r =>
    (s.elim true fun lo => decide (lo ≤ r.date_UTC)) &&
    (e.elim true fun hi => decide (r.date_UTC ≤ hi))

/-- An environment whose catalog listing follows `catalogListing` over fixed
contents `cat`; the other collaborators are irrelevant to indexing. -/
def rangeEnv (cat : String → List (Row Nat)) : Env Nat :=
  { trivEnv with listing := fun tile s e => .ok (catalogListing cat tile s e) }

/-- The S30 date list computed by the indexer for one tile over the closed
range `[a, b]`. -/
def s30DatesRange (cat : String → List (Row Nat)) (t : String) (a b : Nat) :
    List Nat :=
  sortDedup (((catalogListing cat t (some a) (some b)).filter
    (·.sentinel)).map (·.date_UTC))

/-- The L30 date list computed by the indexer for one tile over the closed
range `[a, b]`. -/
def l30DatesRange (cat : String → List (Row Nat)) (t : String) (a b : Nat) :
    List Nat :=
  sortDedup (((catalogListing cat t (some a) (some b)).filter
    (·.landsat)).map (·.date_UTC))

/-- The raw date accumulator produced by the indexing loop. -/
def datesOfRange (cat : String → List (Row Nat)) (a b : Nat) :
    List String → List Nat
  | [] => []
  | t :: rest =>
    s30DatesRange cat t a b ++ l30DatesRange cat t a b ++
      datesOfRange cat a b rest

theorem runsAs_logDates_ok {D : Type} (l : List D) :
    ∃ ev, RunsAs (logDates l) ⟨.ok (), ev, [], []⟩ := by
  induction l with
  | nil => exact ⟨[], runsAs_pure ()⟩
  | cons x xs ih =>
    obtain ⟨ev2, h2⟩ := ih
    simp only [logDates, List.foldr_cons]
    exact ⟨_, runsAs_bind_ok (runsAs_logM .info) h2⟩

theorem runsAs_ite_pos {α : Type} {c : Prop} [Decidable c] {t e : M α}
    {u : URun α} (hc : c) (h : RunsAs t u) : RunsAs (if c then t else e) u := by
  rwa [if_pos hc]

theorem runsAs_ite_neg {α : Type} {c : Prop} [Decidable c] {t e : M α}
    {u : URun α} (hc : ¬c) (h : RunsAs e u) : RunsAs (if c then t else e) u := by
  rwa [if_neg hc]

/-- The indexing loop over the range environment always succeeds and
accumulates exactly `datesOfRange`. -/
theorem indexLoop_res (cat : String → List (Row Nat)) (a b : Nat) :
    ∀ tiles : List String, ∃ u : URun (Cal Nat × List Nat),
      RunsAs (indexLoop (rangeEnv cat) (some a) (some b) tiles) u ∧
      ∃ cal, u.res = .ok (cal, datesOfRange cat a b tiles) := by
  intro tiles
  induction tiles with
  | nil => exact ⟨⟨.ok ([], []), [], [], []⟩, runsAs_pure _, [], rfl⟩
  | cons tile rest ih =>
    obtain ⟨u2, h2, cal2, hres2⟩ := ih
    obtain ⟨r2, ev2, ds2, fls2⟩ := u2
    simp only at hres2
    subst hres2
    simp only [indexLoop]
    by_cases h : s30DatesRange cat tile a b = [] ∧ l30DatesRange cat tile a b = []
    · exact ⟨_,
        runsAs_bind_ok (runsAs_logM _) (runsAs_bind_ok (runsAs_record _)
          (runsAs_bind_ok (runsAs_liftE_ok rfl) (runsAs_ite_pos h
            (runsAs_bind_ok (runsAs_logM _)
              (runsAs_bind_ok h2 (runsAs_pure _)))))),
        ⟨(tile, ⟨[], []⟩) :: cal2, by simp [datesOfRange, h.1, h.2]⟩⟩
    · obtain ⟨evS, hS⟩ := runsAs_logDates_ok (s30DatesRange cat tile a b)
      obtain ⟨evL, hL⟩ := runsAs_logDates_ok (l30DatesRange cat tile a b)
      by_cases hs1 : s30DatesRange cat tile a b ≠ []
      · by_cases hl1 : l30DatesRange cat tile a b ≠ []
        · exact ⟨_,
            (runsAs_bind_ok (runsAs_logM _) (runsAs_bind_ok (runsAs_record _) (runsAs_bind_ok (runsAs_liftE_ok rfl) (runsAs_ite_neg h (runsAs_ite_pos hs1 (runsAs_bind_ok (runsAs_logM _) (runsAs_bind_ok hS (runsAs_ite_pos hl1 (runsAs_bind_ok (runsAs_logM _) (runsAs_bind_ok hL (runsAs_bind_ok h2 (runsAs_pure _)))))))))))),
            ⟨(tile, ⟨s30DatesRange cat tile a b, l30DatesRange cat tile a b⟩) :: cal2,
              by simp [datesOfRange, s30DatesRange, l30DatesRange]⟩⟩
        · exact ⟨_,
            (runsAs_bind_ok (runsAs_logM _) (runsAs_bind_ok (runsAs_record _) (runsAs_bind_ok (runsAs_liftE_ok rfl) (runsAs_ite_neg h (runsAs_ite_pos hs1 (runsAs_bind_ok (runsAs_logM _) (runsAs_bind_ok hS (runsAs_ite_neg hl1 (runsAs_bind_ok (runsAs_pure ()) (runsAs_bind_ok h2 (runsAs_pure _))))))))))),
            ⟨(tile, ⟨s30DatesRange cat tile a b, l30DatesRange cat tile a b⟩) :: cal2,
              by simp [datesOfRange, s30DatesRange, l30DatesRange]⟩⟩
      · by_cases hl1 : l30DatesRange cat tile a b ≠ []
        · exact ⟨_,
            (runsAs_bind_ok (runsAs_logM _) (runsAs_bind_ok (runsAs_record _) (runsAs_bind_ok (runsAs_liftE_ok rfl) (runsAs_ite_neg h (runsAs_ite_neg hs1 (runsAs_bind_ok (runsAs_pure ()) (runsAs_ite_pos hl1 (runsAs_bind_ok (runsAs_logM _) (runsAs_bind_ok hL (runsAs_bind_ok h2 (runsAs_pure _))))))))))),
            ⟨(tile, ⟨s30DatesRange cat tile a b, l30DatesRange cat tile a b⟩) :: cal2,
              by simp [datesOfRange, s30DatesRange, l30DatesRange]⟩⟩
        · exact ⟨_,
            (runsAs_bind_ok (runsAs_logM _) (runsAs_bind_ok (runsAs_record _) (runsAs_bind_ok (runsAs_liftE_ok rfl) (runsAs_ite_neg h (runsAs_ite_neg hs1 (runsAs_bind_ok (runsAs_pure ()) (runsAs_ite_neg hl1 (runsAs_bind_ok (runsAs_pure ()) (runsAs_bind_ok h2 (runsAs_pure _)))))))))),
            ⟨(tile, ⟨s30DatesRange cat tile a b, l30DatesRange cat tile a b⟩) :: cal2,
              by simp [datesOfRange, s30DatesRange, l30DatesRange]⟩⟩

/-- The date universe the orchestrator's indexing stage produces for the
closed range `[a, b]` over fixed catalog contents: the program's `indexTiles`
run on the range environment. -/
def dateUniverse (cat : String → List (Row Nat)) (tiles : List String)
    (a b : Nat) : List Nat :=
  match indexTiles (rangeEnv cat) (some a) (some b) tiles st0 with
  | (.ok pr, _) => pr.2
  | (.error _, _) => []

theorem runsAs_bind_ok' {α β : Type} (x : M α) (f : α → M β) {a : α}
    {ev1 ds1 fls1} {u2 : URun β}
    (hx : RunsAs x ⟨.ok a, ev1, ds1, fls1⟩) (hf : RunsAs (f a) u2) :
    RunsAs (mbind x f) ⟨u2.res, u2.ev ++ ev1, ds1 ++ u2.ds, fls1 ++ u2.fls⟩ :=
  runsAs_bind_ok hx hf

theorem dateUniverse_eq (cat : String → List (Row Nat)) (tiles : List String)
    (a b : Nat) :
    dateUniverse cat tiles a b = sortDedup (datesOfRange cat a b tiles) := by
  obtain ⟨u, hu, cal, hres⟩ := indexLoop_res cat a b tiles
  obtain ⟨r, ev, ds, fls⟩ := u
  simp only at hres
  subst hres
  have hrun := runsAs_bind_ok' (indexLoop (rangeEnv cat) (some a) (some b) tiles)
    (fun pr : Cal Nat × List Nat =>
      (do logM .info; pure (pr.1, sortDedup pr.2) : M (Cal Nat × List Nat))) hu
    (runsAs_bind_ok' (logM .info)
      (fun _ => pure ((cal, datesOfRange cat a b tiles).1,
        sortDedup (cal, datesOfRange cat a b tiles).2))
      (runsAs_logM .info) (runsAs_pure _))
  have hIT : RunsAs (indexTiles (rangeEnv cat) (some a) (some b) tiles)
      ⟨.ok (cal, sortDedup (datesOfRange cat a b tiles)),
       [Event.logged .info] ++ ev, ds ++ [], fls ++ []⟩ := hrun
  unfold dateUniverse
  rw [hIT st0]

/-- Membership in the accumulated dates: a date is collected iff some queried
tile has a catalog row for it, in range, carrying a sensor field. -/
theorem mem_datesOfRange {cat : String → List (Row Nat)} {a b x : Nat}
    {tiles : List String} :
    x ∈ datesOfRange cat a b tiles ↔
      ∃ t ∈ tiles, ∃ r ∈ cat t, r.date_UTC = x ∧ a ≤ x ∧ x ≤ b ∧
        (r.sentinel ∨ r.landsat) := by
  induction tiles with
  | nil => simp [datesOfRange]
  | cons t rest ih =>
    simp only [datesOfRange, List.mem_append, ih, s30DatesRange, l30DatesRange,
      mem_sortDedup, List.mem_map, List.mem_filter, catalogListing,
      List.mem_cons]
    constructor
    · rintro ((⟨r, ⟨⟨hr, hrange⟩, hs⟩, hdate⟩ | ⟨r, ⟨⟨hr, hrange⟩, hs⟩, hdate⟩) |
        ⟨t', ht', hrest⟩)
      · subst hdate
        simp only [Option.elim, Bool.and_eq_true, decide_eq_true_eq] at hrange
        exact ⟨t, Or.inl rfl, r, hr, rfl, hrange.1, hrange.2, Or.inl hs⟩
      · subst hdate
        simp only [Option.elim, Bool.and_eq_true, decide_eq_true_eq] at hrange
        exact ⟨t, Or.inl rfl, r, hr, rfl, hrange.1, hrange.2, Or.inr hs⟩
      · exact ⟨t', Or.inr ht', hrest⟩
    · rintro ⟨t', ht' | ht', r, hr, hdate, hlo, hhi, hsens⟩
      · subst ht'
        rcases hsens with hs | hs
        · exact Or.inl (Or.inl ⟨r, ⟨⟨hr, by
            simp [Option.elim, hdate, hlo, hhi]⟩, hs⟩, hdate⟩)
        · exact Or.inl (Or.inr ⟨r, ⟨⟨hr, by
            simp [Option.elim, hdate, hlo, hhi]⟩, hs⟩, hdate⟩)
      · exact Or.inr ⟨t', ht', r, hr, hdate, hlo, hhi, hsens⟩

theorem mem_dateUniverse {cat : String → List (Row Nat)} {a b x : Nat}
    {tiles : List String} :
    x ∈ dateUniverse cat tiles a b ↔
      ∃ t ∈ tiles, ∃ r ∈ cat t, r.date_UTC = x ∧ a ≤ x ∧ x ≤ b ∧
        (r.sentinel ∨ r.landsat) := by
  rw [dateUniverse_eq, mem_sortDedup, mem_datesOfRange]

/-- C5: over fixed catalog contents, the DateUniverse from indexing the
adjacent closed ranges `[a,b]` and `[b+1,c]` set-unions to the DateUniverse
from indexing `[a,c]` directly, and every produced DateUniverse is strictly
ascending (sorted with duplicates removed). -/
theorem dateUniverse_range_additive (cat : String → List (Row Nat))
    (tiles : List String) (a b c : Nat) (h1 : a ≤ b) (h2 : b ≤ c) :
    (dateUniverse cat tiles a b).toFinset ∪
      (dateUniverse cat tiles (b + 1) c).toFinset =
      (dateUniverse cat tiles a c).toFinset ∧
    ∀ lo hi, (dateUniverse cat tiles lo hi).Sorted (· < ·) := by
  constructor
  · ext x
    simp only [Finset.mem_union, List.mem_toFinset, mem_dateUniverse]
    constructor
    · rintro (⟨t, ht, r, hr, hdate, hlo, hhi, hsens⟩ |
        ⟨t, ht, r, hr, hdate, hlo, hhi, hsens⟩)
      · exact ⟨t, ht, r, hr, hdate, hlo, by omega, hsens⟩
      · exact ⟨t, ht, r, hr, hdate, by omega, hhi, hsens⟩
    · rintro ⟨t, ht, r, hr, hdate, hlo, hhi, hsens⟩
      by_cases hx : x ≤ b
      · exact Or.inl ⟨t, ht, r, hr, hdate, hlo, hx, hsens⟩
      · exact Or.inr ⟨t, ht, r, hr, hdate, by omega, hhi, hsens⟩
  · intro lo hi
    rw [dateUniverse_eq]
    exact sorted_sortDedup _

/-- A two-row catalog used to instantiate the range-additivity law. -/
def catTwo : String → List (Row Nat) := fun _ =>
  [⟨20220801, true, false⟩, ⟨20220803, false, true⟩]

/-- C5 witness: the range-additivity law applied at a concrete catalog and
split point. -/
theorem dateUniverse_range_additive_witness :
    (dateUniverse catTwo ["10SEG"] 20220801 20220802).toFinset ∪
      (dateUniverse catTwo ["10SEG"] (20220802 + 1) 20220803).toFinset =
      (dateUniverse catTwo ["10SEG"] 20220801 20220803).toFinset ∧
    ∀ lo hi, (dateUniverse catTwo ["10SEG"] lo hi).Sorted (· < ·) :=
  dateUniverse_range_additive catTwo ["10SEG"] 20220801 20220802 20220803
    (by decide) (by decide)

/-- C10: when no bands are requested, the orchestrator behaves exactly as if
the thirteen-element default band list had been passed explicitly, and that
default list is red, green, blue, coastal_aerosol, NIR, rededge1, rededge2,
rededge3, NIR_broad, SWIR1, SWIR2, water_vapor, cirrus, in that order. -/
theorem generate_default_bands {D : Type} [LinearOrder D] (env : Env D)
    (fmt : D → String) (tiles : OptStrs) (geometry : Option Geom)
    (sUTC eUTC : Option D) (dl out : Option String) (source : String) :
    (∀ st, generate_HLS_timeseries env fmt .noneV tiles geometry sUTC eUTC dl
        out source st =
      generate_HLS_timeseries env fmt (.listV BANDS) tiles geometry sUTC eUTC
        dl out source st) ∧
    BANDS = ["red", "green", "blue", "coastal_aerosol", "NIR", "rededge1",
      "rededge2", "rededge3", "NIR_broad", "SWIR1", "SWIR2", "water_vapor",
      "cirrus"] := by
  exact ⟨fun st => rfl, rfl⟩

theorem pjoin_base (out : String) :
    ∃ g : List Char, (pjoin out "S30").data = g ++ "S30".data ∧
      (pjoin out "L30").data = g ++ "L30".data := by
  unfold pjoin
  by_cases h1 : out = ""
  · exact ⟨[], by simp [h1]⟩
  · by_cases h2 : out.data.getLast? = some '/'
    · exact ⟨out.data, by simp [h1, h2, String.data_append]⟩
    · exact ⟨out.data ++ "/".data, by
        simp [h1, h2, String.data_append, List.append_assoc]⟩

theorem pjoin_pjoin_data (s b n : String) (hne : s.data ≠ [])
    (hlast : s.data.getLast? ≠ some '/') :
    ∃ w : List Char, (pjoin (pjoin s b) n).data = s.data ++ '/' :: w := by
  have hs : s ≠ "" := fun h => hne (by simp [h])
  have h1 : pjoin s b = s ++ "/" ++ b := by
    unfold pjoin
    rw [if_neg hs, if_neg hlast]
  rw [h1]
  by_cases h2 : ((s ++ "/" ++ b) : String) = ""
  · exfalso
    apply hne
    have := congrArg String.data h2
    simp [String.data_append] at this
  · by_cases h3 : (s ++ "/" ++ b).data.getLast? = some '/'
    · refine ⟨b.data ++ n.data, ?_⟩
      unfold pjoin
      rw [if_neg h2, if_pos h3]
      simp [String.data_append, List.append_assoc]
    · refine ⟨b.data ++ '/' :: n.data, ?_⟩
      unfold pjoin
      rw [if_neg h2, if_neg h3]
      simp [String.data_append, List.append_assoc]

/-- The sensor-segregated output subtrees of `both` mode are disjoint: no path
lies under both `{out}/S30/...` and `{out}/L30/...`. -/
theorem s30_l30_disjoint (out b1 n1 b2 n2 : String) :
    pjoin (pjoin (pjoin out "S30") b1) n1 ≠
      pjoin (pjoin (pjoin out "L30") b2) n2 := by
  obtain ⟨g, hS, hL⟩ := pjoin_base out
  have hSne : (pjoin out "S30").data ≠ [] := by
    rw [hS]; simp
  have hSlast : (pjoin out "S30").data.getLast? ≠ some '/' := by
    rw [hS, List.getLast?_append]
    simp [show "S30".data = ['S', '3', '0'] from rfl]
  have hLne : (pjoin out "L30").data ≠ [] := by
    rw [hL]; simp
  have hLlast : (pjoin out "L30").data.getLast? ≠ some '/' := by
    rw [hL, List.getLast?_append]
    simp [show "L30".data = ['L', '3', '0'] from rfl]
  obtain ⟨w1, hw1⟩ := pjoin_pjoin_data (pjoin out "S30") b1 n1 hSne hSlast
  obtain ⟨w2, hw2⟩ := pjoin_pjoin_data (pjoin out "L30") b2 n2 hLne hLlast
  intro heq
  have hdata := congrArg String.data heq
  rw [hw1, hw2, hS, hL] at hdata
  simp only [List.append_assoc] at hdata
  have h2 := List.append_cancel_left hdata
  simp [show "S30".data = ['S', '3', '0'] from rfl,
    show "L30".data = ['L', '3', '0'] from rfl] at h2

/-- A path of the form written by sensor `sensor` for band `bnd` under the
sensor-segregated subtree `{out}/{sensor}/{bnd}/`. -/
def underSensor (out sensor bnd p : String) : Prop :=
  ∃ n, p = pjoin (pjoin (pjoin out sensor) bnd)
    (sensor ++ "_" ++ bnd ++ "_" ++ n)

theorem bandFilename_shape {D : Type} (fmt : D → String)
    (sensor band tile : String) (d_parsed : D) (dir : String) :
    bandFilename fmt sensor band tile d_parsed dir =
      pjoin dir (sensor ++ "_" ++ band ++ "_" ++
        (tile ++ "_" ++ fmt d_parsed ++ ".tif")) := by
  unfold bandFilename
  congr 1
  apply String.ext
  simp [String.data_append, List.append_assoc]

theorem mosaicFilename_shape {D : Type} (fmt : D → String)
    (sensor band : String) (d_parsed : D) (dir : String) :
    mosaicFilename fmt sensor band d_parsed dir =
      pjoin dir (sensor ++ "_" ++ band ++ "_" ++ (fmt d_parsed ++ ".tif")) := by
  unfold mosaicFilename
  congr 1
  apply String.ext
  simp [String.data_append, List.append_assoc]

/-- Summary conditions for a `both`-mode unit writing sensor `sensor`, band
`band` into directory `dir`: its value and its writes are paths of the
deterministic sensor-prefixed form, it never queries the combined product,
and it always succeeds. -/
def StepOk (dir sensor band : String) (u : URun (Option String)) : Prop :=
  (∀ f, u.res = .ok (some f) →
    ∃ n, f = pjoin dir (sensor ++ "_" ++ band ++ "_" ++ n)) ∧
  (∀ p, Event.writeFile p ∈ u.ev →
    ∃ n, p = pjoin dir (sensor ++ "_" ++ band ++ "_" ++ n)) ∧
  (∀ b t, Event.combinedQuery b t ∉ u.ev) ∧
  (∃ o, u.res = .ok o)

theorem psb_stepOk {D : Type} (env : Env D) (fmt : D → String)
    (sensor : String) (d d_parsed : D) (band tile dir : String) :
    ∃ u, RunsAs (process_sensor_band env fmt sensor d d_parsed band tile dir) u
      ∧ StepOk dir sensor band u := by
  obtain ⟨u, h, hres, hw, hc, hfls⟩ :=
    runsAs_process_sensor_band env fmt sensor d d_parsed band tile dir
  refine ⟨u, h, ?_, ?_, hc, ?_⟩
  · intro f hf
    rcases hres with hres | hres
    · rw [hres] at hf
      cases hf
    · rw [hres] at hf
      cases hf
      exact ⟨tile ++ "_" ++ fmt d_parsed ++ ".tif",
        bandFilename_shape fmt sensor band tile d_parsed dir⟩
  · intro p hp
    have := hw p hp
    rw [this]
    exact ⟨tile ++ "_" ++ fmt d_parsed ++ ".tif", by
      rw [show expanduser (bandFilename fmt sensor band tile d_parsed dir) =
        bandFilename fmt sensor band tile d_parsed dir from rfl]
      exact bandFilename_shape fmt sensor band tile d_parsed dir⟩
  · rcases hres with hres | hres
    · exact ⟨none, hres⟩
    · exact ⟨_, hres⟩

theorem psm_stepOk {D : Type} [DecidableEq D] (env : Env D) (fmt : D → String)
    (sensor : String) (d d_parsed : D) (band : String) (tiles : List String)
    (cal : Cal D) (geometry : Geom) (dir : String) :
    ∃ u, RunsAs (process_sensor_mosaic env fmt sensor d d_parsed band tiles cal
      geometry dir) u ∧ StepOk dir sensor band u := by
  obtain ⟨u, h, hres, hw, hc, hfls⟩ :=
    runsAs_process_sensor_mosaic env fmt sensor d d_parsed band tiles cal
      geometry dir
  refine ⟨u, h, ?_, ?_, hc, ?_⟩
  · intro f hf
    rcases hres with hres | hres
    · rw [hres] at hf
      cases hf
    · rw [hres] at hf
      cases hf
      exact ⟨fmt d_parsed ++ ".tif",
        mosaicFilename_shape fmt sensor band d_parsed dir⟩
  · intro p hp
    have := hw p hp
    rw [this]
    exact ⟨fmt d_parsed ++ ".tif", by
      rw [show expanduser (mosaicFilename fmt sensor band d_parsed dir) =
        mosaicFilename fmt sensor band d_parsed dir from rfl]
      exact mosaicFilename_shape fmt sensor band d_parsed dir⟩
  · rcases hres with hres | hres
    · exact ⟨none, hres⟩
    · exact ⟨_, hres⟩

theorem bothSensorStep_stepOk {D : Type} [DecidableEq D] (env : Env D)
    (fmt : D → String) (sensor : String) (d d_parsed : D) (band : String)
    (cal : Cal D) (tile dir : String) :
    ∃ u, RunsAs (bothSensorStep env fmt sensor d d_parsed band cal tile dir) u
      ∧ StepOk dir sensor band u := by
  simp only [bothSensorStep]
  by_cases hmem : d ∈ calGet cal tile sensor
  · rw [if_pos hmem]
    exact psb_stepOk env fmt sensor d d_parsed band tile dir
  · rw [if_neg hmem]
    refine ⟨⟨.ok none, [], [], []⟩, runsAs_pure none, ?_, ?_, ?_, ⟨none, rfl⟩⟩
    · intro f hf
      cases hf
    · intro p hp
      cases hp
    · intro b t hbt
      cases hbt

/-- A uniform-run summary whose successful result satisfies `Q`, all of whose
file writes land on paths satisfying `PP`, and which never queries the
combined HLS product. -/
def PathOk (PP : String → Prop) {α : Type} (Q : α → Prop) (u : URun α) : Prop :=
  (∀ a, u.res = .ok a → Q a) ∧
  (∀ p, Event.writeFile p ∈ u.ev → PP p) ∧
  (∀ b t, Event.combinedQuery b t ∉ u.ev)

theorem pathOk_weaken {PP PPx : String → Prop} {α : Type} {Q Qx : α → Prop}
    {u : URun α} (hP : ∀ p, PP p → PPx p) (hQ : ∀ a, Q a → Qx a)
    (h : PathOk PP Q u) : PathOk PPx Qx u :=
  ⟨fun a ha => hQ a (h.1 a ha), fun p hp => hP p (h.2.1 p hp), h.2.2⟩

theorem pathOk_seq {PP : String → Prop} {α β : Type} (Q : α → Prop)
    {R : β → Prop} {x : M α} {f : α → M β}
    (hx : ∃ u, RunsAs x u ∧ PathOk PP Q u)
    (hf : ∀ a, Q a → ∃ u, RunsAs (f a) u ∧ PathOk PP R u) :
    ∃ u, RunsAs (x >>= f) u ∧ PathOk PP R u := by
  obtain ⟨u1, h1, hq1, hw1, hc1⟩ := hx
  rcases hres : u1.res with e | a
  · refine ⟨⟨.error e, u1.ev, u1.ds, u1.fls⟩, fun st => ?_, ?_, hw1, hc1⟩
    · have hx1 := h1 st
      rw [hres] at hx1
      simp [bind_eq, mbind, hx1]
    · intro b hb
      simp at hb
  · obtain ⟨u2, h2, hq2, hw2, hc2⟩ := hf a (hq1 a hres)
    refine ⟨⟨u2.res, u2.ev ++ u1.ev, u1.ds ++ u2.ds, u1.fls ++ u2.fls⟩,
      fun st => ?_, ?_, ?_, ?_⟩
    · have hx1 := h1 st
      rw [hres] at hx1
      simp [bind_eq, mbind, hx1, h2 _, insList_append, List.append_assoc]
    · exact fun b hb => hq2 b hb
    · intro p hp
      rcases List.mem_append.mp hp with h | h
      · exact hw2 p h
      · exact hw1 p h
    · intro b t hbt
      rcases List.mem_append.mp hbt with h | h
      · exact absurd h (hc2 b t)
      · exact absurd h (hc1 b t)

theorem pathOk_pure {PP : String → Prop} {α : Type} {Q : α → Prop} (a : α)
    (ha : Q a) : ∃ u, RunsAs (Pure.pure a : M α) u ∧ PathOk PP Q u := by
  refine ⟨⟨.ok a, [], [], []⟩, runsAs_pure a, ?_, ?_, ?_⟩
  · intro b hb
    exact (Except.ok.inj hb) ▸ ha
  · intro p hp
    cases hp
  · intro b t h
    cases h

theorem pathOk_throwM {PP : String → Prop} {α : Type} {Q : α → Prop}
    (e : PyErr) : ∃ u, RunsAs (throwM e : M α) u ∧ PathOk PP Q u := by
  refine ⟨⟨.error e, [], [], []⟩, runsAs_throwM e, ?_, ?_, ?_⟩
  · intro a ha
    simp at ha
  · intro p hp
    cases hp
  · intro b t h
    cases h

theorem pathOk_ite {PP : String → Prop} {α : Type} {Q : α → Prop} {c : Prop}
    [Decidable c] {t e : M α}
    (ht : ∃ u, RunsAs t u ∧ PathOk PP Q u)
    (he : ∃ u, RunsAs e u ∧ PathOk PP Q u) :
    ∃ u, RunsAs (if c then t else e) u ∧ PathOk PP Q u := by
  by_cases hc : c
  · simpa [hc] using ht
  · simpa [hc] using he

theorem pathOk_of_NW {PP : String → Prop} {α : Type} {x : M α}
    (h : ∃ u, RunsAs x u ∧ NoWC u) :
    ∃ u, RunsAs x u ∧ PathOk PP (fun _ => True) u := by
  obtain ⟨u, hu, hn⟩ := h
  exact ⟨u, hu, fun a _ => trivial, fun p hp => absurd hp (hn.1 p), hn.2⟩

theorem stepOk_pathOk {dir sensor band : String} {u : URun (Option String)}
    (h : StepOk dir sensor band u) :
    PathOk (fun p => ∃ n, p = pjoin dir (sensor ++ "_" ++ band ++ "_" ++ n))
      (fun o => ∀ f, o = some f →
        ∃ n, f = pjoin dir (sensor ++ "_" ++ band ++ "_" ++ n)) u := by
  obtain ⟨hres, hw, hc, -⟩ := h
  refine ⟨?_, hw, hc⟩
  intro o ho f hf
  rw [hf] at ho
  exact hres f ho

theorem mem_optCons {α : Type} {p : α} {o : Option α} {l : List α}
    (h : p ∈ optCons o l) : o = some p ∨ p ∈ l := by
  cases o with
  | none => exact Or.inr h
  | some a =>
    rcases List.mem_cons.mp h with h | h
    · exact Or.inl (by rw [h])
    · exact Or.inr h

/-- A path written by the `both`-mode tile loop: it lies either in the S30
band directory with an `S30_`-prefixed basename, or in the L30 band directory
with an `L30_`-prefixed basename. -/
def pairPath (dS dL band p : String) : Prop :=
  (∃ n, p = pjoin dS ("S30" ++ "_" ++ band ++ "_" ++ n)) ∨
  (∃ n, p = pjoin dL ("L30" ++ "_" ++ band ++ "_" ++ n))

theorem bothTileLoop_pathOk {D : Type} [DecidableEq D] (env : Env D)
    (fmt : D → String) (d d_parsed : D) (band : String) (cal : Cal D)
    (dS dL : String) (tiles : List String) :
    ∃ u, RunsAs (bothTileLoop env fmt d d_parsed band cal dS dL tiles) u ∧
      PathOk (pairPath dS dL band)
        (fun fs => ∀ p ∈ fs, pairPath dS dL band p) u := by
  induction tiles with
  | nil =>
    simp only [bothTileLoop]
    exact pathOk_pure [] fun p hp => absurd hp (List.not_mem_nil p)
  | cons tile rest ih =>
    simp only [bothTileLoop]
    refine pathOk_seq (fun o => ∀ f, o = some f →
      ∃ n, f = pjoin dS ("S30" ++ "_" ++ band ++ "_" ++ n)) ?_ ?_
    · obtain ⟨u1, hu1, hs1⟩ :=
        bothSensorStep_stepOk env fmt "S30" d d_parsed band cal tile dS
      exact ⟨u1, hu1, pathOk_weaken (fun p hp => Or.inl hp) (fun o ho => ho)
        (stepOk_pathOk hs1)⟩
    · intro fS hfS
      refine pathOk_seq (fun o => ∀ f, o = some f →
        ∃ n, f = pjoin dL ("L30" ++ "_" ++ band ++ "_" ++ n)) ?_ ?_
      · obtain ⟨u2, hu2, hs2⟩ :=
          bothSensorStep_stepOk env fmt "L30" d d_parsed band cal tile dL
        exact ⟨u2, hu2, pathOk_weaken (fun p hp => Or.inr hp) (fun o ho => ho)
          (stepOk_pathOk hs2)⟩
      · intro fL hfL
        refine pathOk_seq (fun fs => ∀ p ∈ fs, pairPath dS dL band p) ih ?_
        intro restFiles hrest
        refine pathOk_pure _ ?_
        intro p hp
        rcases mem_optCons hp with h | hp2
        · exact Or.inl (hfS p h)
        · rcases mem_optCons hp2 with h | h
          · exact Or.inr (hfL p h)
          · exact hrest p h

theorem dispatchBand_both_pathOk {D : Type} [DecidableEq D] (env : Env D)
    (fmt : D → String) (d d_parsed : D) (band : String) (tiles : List String)
    (cal : Cal D) (geometry : Option Geom) (out : String) :
    ∃ u, RunsAs (dispatchBand env fmt "both" d d_parsed band tiles cal geometry
      (some out)) u ∧
      PathOk
        (fun p => underSensor out "S30" band p ∨ underSensor out "L30" band p)
        (fun fs => ∀ p ∈ fs,
          underSensor out "S30" band p ∨ underSensor out "L30" band p) u := by
  simp only [dispatchBand]
  rw [if_neg (by decide : ¬("both" : String) = "HLS"),
    if_neg (by decide : ¬("both" : String) = "S30"),
    if_neg (by decide : ¬("both" : String) = "L30")]
  rw [if_pos trivial]
  refine pathOk_seq (fun s => s = pjoin out "S30") ?_ ?_
  · refine ⟨⟨.ok (pjoin out "S30"), [], [], []⟩, runsAs_mpure _, ?_, ?_, ?_⟩
    · intro s hs
      exact (Except.ok.inj hs).symm
    · intro p hp
      cases hp
    · intro b t h
      cases h
  · intro s30_base hs
    subst hs
    refine pathOk_seq (fun s => s = pjoin out "L30") ?_ ?_
    · refine ⟨⟨.ok (pjoin out "L30"), [], [], []⟩, runsAs_mpure _, ?_, ?_, ?_⟩
      · intro s hs
        exact (Except.ok.inj hs).symm
      · intro p hp
        cases hp
      · intro b t h
        cases h
    · intro l30_base hl
      subst hl
      cases geometry with
      | none =>
        obtain ⟨u, hu, hp⟩ := bothTileLoop_pathOk env fmt d d_parsed band cal
          (pjoin (pjoin out "S30") band) (pjoin (pjoin out "L30") band) tiles
        refine ⟨u, hu, pathOk_weaken ?_ ?_ hp⟩
        · intro p h
          exact h
        · intro fs hf p hps
          exact hf p hps
      | some g =>
        refine pathOk_seq (fun o => ∀ f, o = some f →
          underSensor out "S30" band f) ?_ ?_
        · obtain ⟨u, hu, hs⟩ := psm_stepOk env fmt "S30" d d_parsed band tiles
            cal g (pjoin (pjoin out "S30") band)
          exact ⟨u, hu, pathOk_weaken (fun p hp => Or.inl hp)
            (fun o ho => ho) (stepOk_pathOk hs)⟩
        · intro fS hfS
          refine pathOk_seq (fun o => ∀ f, o = some f →
            underSensor out "L30" band f) ?_ ?_
          · obtain ⟨u, hu, hs⟩ := psm_stepOk env fmt "L30" d d_parsed band
              tiles cal g (pjoin (pjoin out "L30") band)
            exact ⟨u, hu, pathOk_weaken (fun p hp => Or.inr hp)
              (fun o ho => ho) (stepOk_pathOk hs)⟩
          · intro fL hfL
            refine pathOk_pure _ ?_
            intro p hp
            rcases mem_optCons hp with h | hp2
            · exact Or.inl (hfS p h)
            · rcases mem_optCons hp2 with h | h
              · exact Or.inr (hfL p h)
              · cases h

/-- A path under one of the two sensor-segregated subtrees for some band of
the requested band list. -/
def segPath (out : String) (bands : List String) (p : String) : Prop :=
  ∃ bnd, bnd ∈ bands ∧
    (underSensor out "S30" bnd p ∨ underSensor out "L30" bnd p)

theorem bandLoop_both_pathOk {D : Type} [DecidableEq D] (env : Env D)
    (fmt : D → String) (d d_parsed : D) (tiles : List String) (cal : Cal D)
    (geometry : Option Geom) (out : String) (bands : List String) :
    ∃ u, RunsAs (bandLoop env fmt "both" d d_parsed tiles cal geometry
      (some out) bands) u ∧
      PathOk (segPath out bands) (fun fs => ∀ p ∈ fs, segPath out bands p)
        u := by
  induction bands with
  | nil =>
    simp only [bandLoop]
    exact pathOk_pure [] fun p hp => absurd hp (List.not_mem_nil p)
  | cons band rest ih =>
    simp only [bandLoop]
    refine pathOk_seq (fun fs => ∀ p ∈ fs, segPath out (band :: rest) p) ?_ ?_
    · obtain ⟨u, hu, hp⟩ := dispatchBand_both_pathOk env fmt d d_parsed band
        tiles cal geometry out
      refine ⟨u, hu, pathOk_weaken ?_ ?_ hp⟩
      · intro p h
        exact ⟨band, List.mem_cons_self band rest, h⟩
      · intro fs hf p hps
        exact ⟨band, List.mem_cons_self band rest, hf p hps⟩
    · intro files hfiles
      refine pathOk_seq (fun fs => ∀ p ∈ fs, segPath out (band :: rest) p)
        ?_ ?_
      · obtain ⟨u, hu, hp⟩ := ih
        refine ⟨u, hu, pathOk_weaken ?_ ?_ hp⟩
        · intro p h
          obtain ⟨bnd, hb, hh⟩ := h
          exact ⟨bnd, List.mem_cons_of_mem band hb, hh⟩
        · intro fs hf p hps
          obtain ⟨bnd, hb, hh⟩ := hf p hps
          exact ⟨bnd, List.mem_cons_of_mem band hb, hh⟩
      · intro restFiles hrest
        refine pathOk_pure _ ?_
        intro p hp
        rcases List.mem_append.mp hp with h | h
        · exact hfiles p h
        · exact hrest p h

theorem dateLoop_both_pathOk {D : Type} [DecidableEq D] (env : Env D)
    (fmt : D → String) (tiles : List String) (cal : Cal D)
    (geometry : Option Geom) (out : String) (bands : List String)
    (dates : List D) :
    ∃ u, RunsAs (dateLoop env fmt "both" tiles cal geometry (some out) bands
      dates) u ∧
      PathOk (segPath out bands) (fun fs => ∀ p ∈ fs, segPath out bands p)
        u := by
  induction dates with
  | nil =>
    simp only [dateLoop]
    exact pathOk_pure [] fun p hp => absurd hp (List.not_mem_nil p)
  | cons d rest ih =>
    simp only [dateLoop]
    refine pathOk_seq (fun fs => ∀ p ∈ fs, segPath out bands p)
      (bandLoop_both_pathOk env fmt d d tiles cal geometry out bands) ?_
    intro files hfiles
    refine pathOk_seq (fun fs => ∀ p ∈ fs, segPath out bands p) ih ?_
    intro restFiles hrest
    refine pathOk_pure _ ?_
    intro p hp
    rcases List.mem_append.mp hp with h | h
    · exact hfiles p h
    · exact hrest p h

theorem generate_both_pathOk {D : Type} [LinearOrder D] (env : Env D)
    (fmt : D → String) (bands tiles : OptStrs) (geometry : Option Geom)
    (sUTC eUTC : Option D) (dl : Option String) (out : String) :
    ∃ u, RunsAs (generate_HLS_timeseries env fmt bands tiles geometry sUTC
      eUTC dl (some out) "both") u ∧
      PathOk (segPath out (normalize_bands bands))
        (fun fs => ∀ p ∈ fs, segPath out (normalize_bands bands) p) u := by
  rw [generate_HLS_timeseries.eq_def]
  refine pathOk_ite (pathOk_throwM _) ?_
  refine pathOk_ite (pathOk_throwM _) ?_
  refine pathOk_seq (fun _ => True)
    (pathOk_of_NW (runsAsNW_resolveTiles env tiles geometry)) ?_
  intro tiles' _
  refine pathOk_seq (fun _ => True) (pathOk_of_NW (runsAsNW_logM _)) ?_
  intro _ _
  refine pathOk_seq (fun _ => True) (pathOk_of_NW (runsAsNW_logM _)) ?_
  intro _ _
  refine pathOk_seq (fun _ => True) (pathOk_of_NW (runsAsNW_logM _)) ?_
  intro _ _
  refine pathOk_seq (fun _ => True) (pathOk_of_NW (runsAsNW_logM _)) ?_
  intro _ _
  refine pathOk_seq (fun _ => True) (pathOk_of_NW (runsAsNW_logM _)) ?_
  intro _ _
  refine pathOk_seq (fun _ => True) (pathOk_of_NW (runsAsNW_logM _)) ?_
  intro _ _
  refine pathOk_seq (fun _ => True) (pathOk_of_NW (runsAsNW_logM _)) ?_
  intro _ _
  refine pathOk_seq (fun _ => True)
    (pathOk_of_NW (runsAsNW_indexTiles env sUTC eUTC tiles')) ?_
  intro pr _
  exact dateLoop_both_pathOk env fmt tiles' pr.1 geometry out
    (normalize_bands bands) pr.2

/-- C8: in `both` mode with an explicit output directory `out`, outputs are
segregated by sensor: every returned path and every file write of the run
lies under `{out}/S30/{band}/` with an `S30_`-prefixed basename or under
`{out}/L30/{band}/` with an `L30_`-prefixed basename for some requested band,
the two subtrees are disjoint, and the sensor-combined HLS product is never
queried — no merged HLS output is produced. -/
theorem both_mode_sensor_segregation {D : Type} [LinearOrder D] (env : Env D)
    (fmt : D → String) (bands tiles : OptStrs) (geometry : Option Geom)
    (sUTC eUTC : Option D) (dl : Option String) (out : String) (st : St) :
    (∀ ps, (generate_HLS_timeseries env fmt bands tiles geometry sUTC eUTC dl
        (some out) "both" st).1 = .ok ps →
      ∀ p ∈ ps, segPath out (normalize_bands bands) p) ∧
    (∀ p, Event.writeFile p ∈ (generate_HLS_timeseries env fmt bands tiles
        geometry sUTC eUTC dl (some out) "both" st).2.events →
      Event.writeFile p ∈ st.events ∨ segPath out (normalize_bands bands) p) ∧
    (∀ b t, Event.combinedQuery b t ∈ (generate_HLS_timeseries env fmt bands
        tiles geometry sUTC eUTC dl (some out) "both" st).2.events →
      Event.combinedQuery b t ∈ st.events) ∧
    (∀ b1 b2 p, underSensor out "S30" b1 p → underSensor out "L30" b2 p →
      False) := by
  obtain ⟨u, hu, hq, hw, hc⟩ :=
    generate_both_pathOk env fmt bands tiles geometry sUTC eUTC dl out
  have hrun := hu st
  refine ⟨?_, ?_, ?_, ?_⟩
  · intro ps hps p hp
    rw [hrun] at hps
    exact hq ps hps p hp
  · intro p hp
    rw [hrun] at hp
    rcases List.mem_append.mp hp with h | h
    · exact Or.inr (hw p h)
    · exact Or.inl h
  · intro b t hbt
    rw [hrun] at hbt
    rcases List.mem_append.mp hbt with h | h
    · exact absurd h (hc b t)
    · exact h
  · intro b1 b2 p h1 h2
    obtain ⟨n1, hn1⟩ := h1
    obtain ⟨n2, hn2⟩ := h2
    exact s30_l30_disjoint out b1 ("S30" ++ "_" ++ b1 ++ "_" ++ n1) b2
      ("L30" ++ "_" ++ b2 ++ "_" ++ n2) (hn1.symm.trans hn2)

/-- C8 witness: the segregation law applied to the concrete `both`-mode
scenario run, whose single output lies under the S30 subtree. -/
theorem both_mode_sensor_segregation_witness :
    segPath "" (normalize_bands (.single "red"))
      "S30/red/S30_red_10SEG_20220803.tif" := by
  have hidx : indexTiles scenarioEnv (some 20220801) (some 20220805)
      ["10SEG"]
      { st0 with events := (.logged .info :: .logged .info :: .logged .info ::
        .logged .info :: .logged .info :: .logged .info :: .logged .info ::
        st0.events) } =
      (.ok ([("10SEG", ⟨[20220803], []⟩)], [20220803]),
       ⟨[.logged .info, .logged .info, .logged .info, .listingQuery "10SEG",
         .logged .info, .logged .info, .logged .info, .logged .info,
         .logged .info, .logged .info, .logged .info, .logged .info],
        [], []⟩) := by decide
  have hrun : (generate_HLS_timeseries scenarioEnv Nat.repr (.single "red")
      (.listV ["10SEG"]) none (some 20220801) (some 20220805) none (some "")
      "both" st0).1 = .ok ["S30/red/S30_red_10SEG_20220803.tif"] := by
    rw [generate_valid_run scenarioEnv Nat.repr (.single "red") ["10SEG"] none
      (some 20220801) (some 20220805) none (some "") "both" (by decide) st0
      hidx]
    decide
  exact (both_mode_sensor_segregation scenarioEnv Nat.repr (.single "red")
    (.listV ["10SEG"]) none (some 20220801) (some 20220805) none "" st0).1
    ["S30/red/S30_red_10SEG_20220803.tif"] hrun
    "S30/red/S30_red_10SEG_20220803.tif" (by decide)

/-- C3 witness: on a sensor lacking the requested band the extractor returns
`None` and logs at warning level. -/
theorem process_sensor_band_error_isolation_witness :
    (process_sensor_band bandAbsentEnv Nat.repr "S30" 20220803 20220803
        "rededge1" "10SEG" "out" st0).1 = .ok none ∧
    Event.logged .warning ∈
      (process_sensor_band bandAbsentEnv Nat.repr "S30" 20220803 20220803
        "rededge1" "10SEG" "out" st0).2.events :=
  (process_sensor_band_error_isolation bandAbsentEnv Nat.repr "S30" 20220803
    20220803 "rededge1" "10SEG" "out" st0).2.1 0 rfl (Or.inr rfl)

end HLS
